import Mathlib

/-!
# Verification of the dknlab_tools parsing/normalization core

Shallow embedding of the dknlab_tools repository (biotek.py, tecan.py,
spectramax.py): the timestamp normalizer `_str2hours`, the condition-legend
loader `plate_condmap`, the instrument-export parsers `wrangle_growthcurves`
and the orchestrating `import_growthcurves` functions.

Modelling conventions:
* A spreadsheet cell is `Cell`: missing (`na`, pandas NaN), a string, or a
  number (numbers are modelled as exact rationals; Python floats are modelled
  by `ℚ`, and Python `round` / pandas `.round()` by round-half-to-even on `ℚ`).
* Fallible Python code (exceptions) is modelled with `Except Err`.
* Row order of pandas `pivot` output is not modelled (we keep first-occurrence
  order of the index values); no verified statement depends on row order of
  the pivoted legend.
-/

set_option allowUnsafeReducibility true
attribute [local semireducible] Rat.add Rat.mul Rat.inv Rat.sub

/-- Python-level failures raised by the dknlab_tools code. -/
inductive Err where
  /-- `RuntimeError` from `_str2hours`: some time component is not a digit string. -/
  | formatTime : Err
  /-- `RuntimeError` from `_str2hours`: minutes or seconds not `< 60`. -/
  | formatRange : Err
  /-- Python `ValueError` (failed tuple unpacking / failed `int()` parse). -/
  | valueError : Err
  /-- Python `TypeError` (e.g. dividing a string column by a number). -/
  | typeError : Err
  /-- Python `IndexError` (out-of-range positional access). -/
  | indexError : Err
  /-- Python `UnboundLocalError` (`return df_out` with `df_out` never assigned). -/
  | unboundLocal : Err
  /-- pandas `KeyError`: a named column is absent. -/
  | keyError (col : String) : Err
  /-- pandas `KeyError` from `melt`: requested `value_vars` absent. -/
  | meltMissing : Err
  /-- pandas `ValueError` from `pivot`: duplicate index/column pairs. -/
  | pivotDup : Err
  /-- pandas `ValueError` from `astype(float)`: non-numeric text. -/
  | floatCast : Err
  /-- `RuntimeError` from `plate_condmap`: several distinct condition names in verbose mode. -/
  | notVerboseNames (names : List String) : Err
  /-- `RuntimeError` from `plate_condmap`: name count and concentration column count differ. -/
  | notVerboseCount (nNames nConcs : Nat) : Err
deriving DecidableEq, Repr

/-- A pandas cell: missing value (NaN), a string, or a number. -/
inductive Cell where
  | na : Cell
  | str (v : String) : Cell
  | num (v : ℚ) : Cell
deriving DecidableEq, Repr

/-- Python `str()` of a cell: NaN prints as `"nan"`; numbers are rendered via
`ℚ`'s printer (no verified statement depends on the rendering of numbers). -/
def cellStr : Cell → String
  | Cell.na => "nan"
  | Cell.str v => v
  | Cell.num v => toString v

/-- Round half to even on `ℚ` (how Python `round` and numpy rounding break ties). -/
def roundHalfEven (q : ℚ) : ℤ :=
  if q - (⌊q⌋ : ℚ) < 1/2 then ⌊q⌋
  else if 1/2 < q - (⌊q⌋ : ℚ) then ⌊q⌋ + 1
  else if ⌊q⌋ % 2 = 0 then ⌊q⌋ else ⌊q⌋ + 1

/-- Python `round(x, 3)`: round to 3 decimal places. -/
def round3 (q : ℚ) : ℚ := (roundHalfEven (q * 1000) : ℚ) / 1000

/-- The first codepoints of the Unicode `Nd` (decimal digit) runs — each run
is a contiguous block of ten codepoints `base..base+9` holding the digits
0–9 of one script. These are the characters CPython's `float`/`int`
conversion accepts as digits and a subset of what `str.isdigit` accepts. -/
def ndBases : List Nat :=
  [0x30, 0x660, 0x6F0, 0x7C0, 0x966, 0x9E6, 0xA66, 0xAE6, 0xB66, 0xBE6,
   0xC66, 0xCE6, 0xD66, 0xDE6, 0xE50, 0xED0, 0xF20, 0x1040, 0x1090, 0x17E0,
   0x1810, 0x1946, 0x19D0, 0x1A80, 0x1A90, 0x1B50, 0x1BB0, 0x1C40, 0x1C50,
   0xA620, 0xA8D0, 0xA900, 0xA9D0, 0xA9F0, 0xAA50, 0xABF0, 0xFF10,
   0x104A0, 0x10D30, 0x11066, 0x110F0, 0x11136, 0x111D0, 0x112F0, 0x11450,
   0x114D0, 0x11650, 0x116C0, 0x11730, 0x118E0, 0x11950, 0x11C50, 0x11D50,
   0x11DA0, 0x11F50, 0x16A60, 0x16AC0, 0x16B50, 0x1D7CE, 0x1D7D8, 0x1D7E2,
   0x1D7EC, 0x1D7F6, 0x1E140, 0x1E2F0, 0x1E4F0, 0x1E950, 0x1FBF0]

/-- The decimal value of a Unicode decimal digit (`Nd`), `none` otherwise. -/
def decDigitVal? (c : Char) : Option Nat :=
  (ndBases.find? (fun b => b ≤ c.toNat && c.toNat ≤ b + 9)).map
    (fun b => c.toNat - b)

/-- A Unicode decimal digit. Python's `str.isdigit` additionally accepts a few
`Numeric_Type=Digit` characters (e.g. `'²'`) that `float()` then rejects with
a `ValueError`; both paths are failures of `_str2hours` and no verified
statement distinguishes the two, so the model folds them into the digit-check
failure. -/
def isPyDigit (c : Char) : Bool := (decDigitVal? c).isSome

/-- The character-level content of a nonempty digit string (Python
`str.isdigit` followed by a successful `float`/`int` conversion — Unicode
decimal digits of any script). -/
def isDigits (l : List Char) : Bool :=
  !l.isEmpty && l.all isPyDigit

/-- Numeric value of a digit string (per-character Unicode decimal values). -/
def natOfDigits (l : List Char) : ℕ :=
  l.foldl (fun a c => 10 * a + (decDigitVal? c).getD 0) 0

/-- Python `int(s)` on a string: optional sign followed by a nonempty digit run
(underscore separators and surrounding whitespace are not modelled; no input
exercised here uses them). -/
def pyInt? (l : List Char) : Option ℤ :=
  if l.head? = some '-' then
    if isDigits l.tail then some (-(natOfDigits l.tail : ℤ)) else none
  else if l.head? = some '+' then
    if isDigits l.tail then some (natOfDigits l.tail : ℤ) else none
  else if isDigits l then some (natOfDigits l : ℤ) else none

/-- Python `float(s)` on a string, for the numeral shapes used in the data:
optional surrounding spaces, optional sign, digits with an optional fractional
part (`inf`/`nan`/exponents are not modelled). -/
def pyFloat? (l : List Char) : Option ℚ :=
  let l := (l.dropWhile (· = ' ')).reverse.dropWhile (· = ' ') |>.reverse
  let core (m : List Char) : Option ℚ :=
    match m.splitOn '.' with
    | [intPart] => if isDigits intPart then some (natOfDigits intPart : ℚ) else none
    | [intPart, fracPart] =>
        if isDigits intPart && isDigits fracPart then
          some ((natOfDigits intPart : ℚ) + (natOfDigits fracPart : ℚ) / (10 ^ fracPart.length : ℕ))
        else none
    | _ => none
  match l with
  | '-' :: rest => (core rest).map (fun q => -q)
  | '+' :: rest => core rest
  | _ => core l

/-- Python `s.split(sep, 1)`-style split at the first occurrence of `sep`;
`none` when `sep` does not occur. -/
def splitFirst (sep : Char) : List Char → Option (List Char × List Char)
  | [] => none
  | c :: rest =>
      if c = sep then some ([], rest)
      else (splitFirst sep rest).map (fun p => (c :: p.1, p.2))

/-- Python `s.split()` with no argument: split on whitespace runs, dropping
empty tokens. -/
def pySplitWs : List Char → List (List Char)
  | [] => []
  | c :: rest =>
      if c.isWhitespace then pySplitWs rest
      else
        match rest with
        | [] => [[c]]
        | d :: _ =>
            if d.isWhitespace then [c] :: pySplitWs rest
            else
              match pySplitWs rest with
              | [] => [[c]]
              | t :: ts => (c :: t) :: ts

/-- `biotek._str2hours` / `spectramax._str2hours`, lines 133–151 (after the
day-prefix step): split the time token on `:` (maxsplit 2, unpacked into
exactly three components), check all components are digit strings, check
minutes and seconds are `< 60`, and return
`hours + accounted_hours + minutes/60 + seconds/3600` (not yet rounded). -/
def str2hoursTail (timeString : List Char) (accountedHours : ℤ) : Except Err ℚ :=
  -- line 133: `hours, minutes, seconds = time_string.split(':', 2)`
  match splitFirst ':' timeString with
  | none => Except.error Err.valueError
  | some (hours, rest) =>
    match splitFirst ':' rest with
    | none => Except.error Err.valueError
    | some (minutes, seconds) =>
      -- lines 136-137: digit check
      if !(isDigits hours && isDigits minutes && isDigits seconds) then
        Except.error Err.formatTime
      else
        -- lines 140-146: conversion and range check
        let h : ℚ := (natOfDigits hours : ℚ) + (accountedHours : ℚ)
        let m : ℚ := (natOfDigits minutes : ℚ)
        let s : ℚ := (natOfDigits seconds : ℚ)
        if !(decide (m < 60) && decide (s < 60)) then
          Except.error Err.formatRange
        else
          -- lines 149-151
          Except.ok (h + m / 60 + s / 3600)

/-- `_str2hours` lines 125–151: the day-prefix handling followed by
`str2hoursTail` (everything except the final rounding). -/
def str2hoursCore (l : List Char) : Except Err ℚ :=
  -- lines 125-130: day-prefix handling
  if ' ' ∈ l then
    match pySplitWs l with
    | [days, t] =>
        -- `accounted_hours = int(days[-2:]) * 24`
        match pyInt? (days.drop (days.length - 2)) with
        | some k => str2hoursTail t (k * 24)
        | none => Except.error Err.valueError
    | _ => Except.error Err.valueError
  else str2hoursTail l 0

/-- `_str2hours` (biotek.py lines 111–154 = spectramax.py lines 116–159) on
character lists: `str2hoursCore` followed by `round(time_in_hours, 3)`. -/
def str2hoursL (l : List Char) : Except Err ℚ :=
  (str2hoursCore l).map round3

/-- `_str2hours` on strings. -/
def str2hours (s : String) : Except Err ℚ :=
  str2hoursL s.toList

instance {ε α : Type} [DecidableEq ε] [DecidableEq α] : DecidableEq (Except ε α) := fun a b =>
  match a, b with
  | Except.ok x, Except.ok y =>
      if h : x = y then isTrue (by rw [h]) else isFalse (by simp [h])
  | Except.error x, Except.error y =>
      if h : x = y then isTrue (by rw [h]) else isFalse (by simp [h])
  | Except.ok _, Except.error _ => isFalse (by simp)
  | Except.error _, Except.ok _ => isFalse (by simp)

/-! ## Helper lemmas on the string-splitting primitives -/

abbrev Sheet := List (List Cell)

/-- The cell at (row, column), NaN when out of range (pandas pads short rows
with NaN; all verified uses stay within the frame). -/
def cellAt (sheet : Sheet) (r c : Nat) : Cell :=
  ((sheet.get? r).map (fun row => row.getD c Cell.na)).getD Cell.na

/-- Python `df.iloc[r]` row access with negative-index wrap-around:
`iloc[-1]` is the last row; out of range raises `IndexError`. -/
def ilocRow (sheet : Sheet) (r : ℤ) : Except Err (List Cell) :=
  if 0 ≤ r then
    match sheet.get? r.toNat with
    | some row => .ok row
    | none => .error .indexError
  else if 0 ≤ (sheet.length : ℤ) + r then
    match sheet.get? ((sheet.length : ℤ) + r).toNat with
    | some row => .ok row
    | none => .error .indexError
  else .error .indexError

/-- Python `str(df.iloc[r, c])` with wrap-around row indexing. -/
def ilocStr (sheet : Sheet) (r : ℤ) (c : Nat) : Except Err String :=
  (ilocRow sheet r).map (fun row => cellStr (row.getD c Cell.na))

/-- The number of columns of the frame `pd.read_excel` builds from a sheet:
rows are NaN-padded to the widest row. `df.columns[k]` raises `IndexError`
when `frameCols sheet ≤ k`. -/
def frameCols (sheet : Sheet) : Nat :=
  (sheet.map List.length).foldl max 0

/-- `df[df[df.columns[dataCol]].isin(labels)].index`: the indices of the rows
whose cell in column `dataCol` is one of the sentinel label strings. -/
def sentinelRows (sheet : Sheet) (dataCol : Nat) (labels : List String) : List Nat :=
  (List.range sheet.length).filter (fun r =>
    match cellAt sheet r dataCol with
    | Cell.str v => labels.contains v
    | _ => false)

/-- A pandas column label derived from a header cell: a NaN header cell becomes
`Unnamed: k` (numeric header cells are rendered as strings; no verified
statement depends on numeric header labels). -/
def colName (k : Nat) : Cell → String
  | Cell.na => "Unnamed: " ++ toString k
  | c => cellStr c

/-- A sub-table as produced by `pd.read_excel(filename, skiprows=start, nrows=size)`:
the first non-skipped sheet row becomes the header, the next `size` rows the data,
all padded to the widest row. A negative `size` reads no data rows (never reached
on the inputs exercised here). -/
structure SubTable where
  headers : List String
  rows : List (List Cell)
deriving DecidableEq, Repr

def readSub (sheet : Sheet) (start : Nat) (size : ℤ) : SubTable :=
  let header := (sheet.get? start).getD []
  let data := (sheet.drop (start + 1)).take size.toNat
  let ncols := (data.map List.length).foldl max header.length
  { headers := (List.range ncols).map (fun k => colName k ((header.get? k).getD Cell.na)),
    rows := data.map (fun row => (List.range ncols).map (fun k => row.getD k Cell.na)) }

/-- `pd.to_numeric(col, errors='coerce')` on one cell: numbers pass through,
numeric text parses, anything else becomes NaN. -/
def toNumeric : Cell → Option ℚ
  | Cell.num v => some v
  | Cell.str v => pyFloat? v.toList
  | Cell.na => none

/-- Python `"T" in w` for the one-character needle used at biotek.py line 241:
true when the character occurs in the string. -/
def strHasChar (w : String) (c : Char) : Bool := c ∈ w.toList

/-- One tidied measurement sub-table of the biotek/spectramax parsers:
its measurement-type name and its (`Time [hr]`, `Well`, value) rows. -/
structure Block where
  name : String
  rows : List (ℚ × String × ℚ)
deriving DecidableEq, Repr

/-- The `Time [hr]` series of one well, in output row order: the first
components of the melted rows carrying that well name. -/
def wellTimes {α : Type} (w : String) (l : List (ℚ × String × α)) : List ℚ :=
  (l.filter (fun p => decide (p.2.1 = w))).map (fun p => p.1)

/-! ## biotek.wrangle_growthcurves (biotek.py lines 157–260) -/

/-- biotek.py lines 202–208: the measurement name for sub-table `i` with
boundary row `ind`: guarded by `m_inds[i]-1 >= 0`, read from
`df.iloc[m_inds[i]-label_spacer, 0]` (Python wrap-around indexing),
else the synthetic `value<i>`. -/
def blockNameB (sheet : Sheet) (labelSpacer i ind : Nat) : Except Err String :=
  if 1 ≤ ind then ilocStr sheet ((ind : ℤ) - labelSpacer) 0
  else .ok ("value" ++ toString i)

/-- The body of the biotek per-measurement loop (biotek.py lines 200–241) for
boundary pair `(ind, nextInd)` at loop index `i`. -/
def biotekBlock (sheet : Sheet) (labelSpacer : Nat) (label : String)
    (i ind nextInd : Nat) : Except Err Block := do
  let name ← blockNameB sheet labelSpacer i ind
  -- lines 211-217: `skiprows=m_inds[i]`, `nrows=m_inds[i+1]-m_inds[i]-3`
  let st := readSub sheet ind ((nextInd : ℤ) - ind - 3)
  match st.headers.findIdx? (fun hdr => hdr = label) with
  | none => .error (.keyError label)
  | some tIdx => do
    -- line 222: `df[rows[0]].astype('str').apply(_str2hours)`
    let hours ← (st.rows.map (fun r => cellStr (r.getD tIdx Cell.na))).mapM str2hours
    -- lines 228-233: melt all non-id columns into (Well, value) pairs
    let valueIdxs := (List.range st.headers.length).filter
      (fun j => !(decide (st.headers.getD j "" = label) ||
                  decide (st.headers.getD j "" = "Time [hr]")))
    let melted : List (ℚ × String × Cell) := valueIdxs.flatMap (fun j =>
      (hours.zip st.rows).map (fun (t, row) =>
        (t, st.headers.getD j "", row.getD j Cell.na)))
    -- line 239: `pd.to_numeric(..., errors='coerce')`
    let coerced := melted.map (fun (t, w, v) => (t, w, toNumeric v))
    -- line 240: `dropna(how='any')`
    let kept := coerced.filterMap (fun (t, w, v?) => v?.map (fun v => (t, w, v)))
    -- line 241: drop wells whose identifier contains 'T'
    let final := kept.filter (fun (_, w, _) => !(strHasChar w 'T'))
    .ok { name := name, rows := final }

/-- biotek.py lines 157–260 (`wrangle_growthcurves`): locate sentinel rows,
slice each sub-table, convert its time column through `_str2hours`, melt the
well columns, coerce values to numeric, drop incomplete rows and
temperature pseudo-wells. -/
def biotekWrangle (sheet : Sheet) (new_bioteks : Bool) : Except Err (List Block) :=
  -- lines 178-185: layout constants for new vs old biotek exports
  let dataCol : Nat := if new_bioteks then 1 else 0
  let labelSpacer : Nat := if new_bioteks then 2 else 1
  let label : String := if new_bioteks then "Time" else "Kinetic read"
  -- line 188: `df.columns[data_col]` raises IndexError on a frame with at
  -- most `data_col` columns; otherwise it selects the sentinel rows
  if frameCols sheet ≤ dataCol then .error .indexError
  else
    let minds := sentinelRows sheet dataCol [label]
    -- line 190: `m_inds.union([len(df)+3])` appends the synthetic end boundary
    let bounds := minds.zip (minds.drop 1 ++ [sheet.length + 3])
    bounds.enum.mapM (fun (i, ind, nextInd) =>
      biotekBlock sheet labelSpacer label i ind nextInd)

/-! ## spectramax.wrangle_growthcurves (spectramax.py lines 162–256) -/

/-- spectramax.py lines 197–203: the measurement name for sub-table `i`:
guarded by `m_inds[i]-1 >= 0`, the concatenation
`str(df.iloc[m_inds[i]-1,5]) + str(df.iloc[m_inds[i]-1,15])`,
else the synthetic `value<i>`. -/
def blockNameS (sheet : Sheet) (i ind : Nat) : Except Err String :=
  if 1 ≤ ind then do
    let a ← ilocStr sheet ((ind : ℤ) - 1) 5
    let b ← ilocStr sheet ((ind : ℤ) - 1) 15
    .ok (a ++ b)
  else .ok ("value" ++ toString i)

/-- `dropna(axis=0, how='all')` (spectramax.py line 217): drop all-NaN rows. -/
def dropnaRows (rows : List (List Cell)) : List (List Cell) :=
  rows.filter (fun row => !(row.all (fun c => decide (c = Cell.na))))

/-- `dropna(axis=1, how='all')` (spectramax.py line 218): the indices of the
columns that keep at least one non-NaN cell. -/
def keepColIdx (headers : List String) (rows : List (List Cell)) : List Nat :=
  (List.range headers.length).filter
    (fun j => !(rows.all (fun row => decide (row.getD j Cell.na = Cell.na))))

/-- The spectramax sub-table headers after both dropna steps. -/
def smaxHeaders1 (st : SubTable) : List String :=
  (keepColIdx st.headers (dropnaRows st.rows)).map (fun j => st.headers.getD j "")

/-- The spectramax sub-table data rows after both dropna steps. -/
def smaxRows2 (st : SubTable) : List (List Cell) :=
  (dropnaRows st.rows).map
    (fun row => (keepColIdx st.headers (dropnaRows st.rows)).map
      (fun j => row.getD j Cell.na))

/-- The body of the spectramax per-measurement loop (spectramax.py lines
195–237) for boundary pair `(ind, nextInd)` at loop index `i`. -/
def spectramaxBlock (sheet : Sheet) (i ind nextInd : Nat) : Except Err Block := do
  let name ← blockNameS sheet i ind
  -- lines 206-212: `skiprows=m_inds[i]`, `nrows=m_inds[i+1]-m_inds[i]-3`
  let st := readSub sheet ind ((nextInd : ℤ) - ind - 3)
  -- lines 217-218: the two dropna steps
  let headers1 := smaxHeaders1 st
  let rows2 := smaxRows2 st
  match headers1.findIdx? (fun hdr => hdr = "Time") with
  | none => .error (.keyError "Time")
  | some tIdx =>
    if !(headers1.contains "Temperature(¡C)") then .error (.keyError "Temperature(¡C)")
    else do
      -- line 219: `df['Time'].astype('str').apply(_str2hours)`
      let hours ← (rows2.map (fun r => cellStr (r.getD tIdx Cell.na))).mapM str2hours
      -- lines 225-230: melt with id columns `Time [hr]`, `Time`, `Temperature(¡C)`
      let valueIdxs := (List.range headers1.length).filter
        (fun j => !(["Time", "Temperature(¡C)", "Time [hr]"].contains
          (headers1.getD j "")))
      let melted : List (ℚ × String × Cell) := valueIdxs.flatMap (fun j =>
        (hours.zip rows2).map (fun (t, row) =>
          (t, headers1.getD j "", row.getD j Cell.na)))
      -- line 236: `pd.to_numeric(..., errors='coerce')`
      let coerced := melted.map (fun (t, w, v) => (t, w, toNumeric v))
      -- line 237: `dropna(how='any')`
      let kept := coerced.filterMap (fun (t, w, v?) => v?.map (fun v => (t, w, v)))
      .ok { name := name, rows := kept }

/-- spectramax.py lines 162–256 (`wrangle_growthcurves`): sentinels are
`'Time'` and `'~End'` in column 0, `n_measurements = len(m_inds) - 1`
(no synthetic end boundary), all-NaN rows and all-NaN columns of each
sub-table are dropped, the time column goes through `_str2hours`, and the
melt keeps `'Time'` and `'Temperature(¡C)'` as id columns. -/
def spectramaxWrangle (sheet : Sheet) : Except Err (List Block) :=
  -- line 183: `df.columns[0]` raises IndexError on an empty (0-column) frame;
  -- line 184: the last boundary only closes the table
  if frameCols sheet = 0 then .error .indexError
  else
    let minds := sentinelRows sheet 0 ["Time", "~End"]
    let bounds := minds.zip (minds.drop 1)
    bounds.enum.mapM (fun (i, ind, nextInd) => spectramaxBlock sheet i ind nextInd)

/-! ## tecan.wrangle_growthcurves (tecan.py lines 108–190) -/

/-- tecan.py lines 159–160: `(df['Time [s]'] / 3600).round()` on one cell;
dividing a string cell raises a `TypeError`, NaN propagates. -/
def cellDivRound3600 : Cell → Except Err (Option ℚ)
  | Cell.num v => .ok (some ((roundHalfEven (v / 3600) : ℤ) : ℚ))
  | Cell.na => .ok none
  | Cell.str _ => .error .typeError

/-- One melted row of a tecan measurement table: the four id columns
(`Time [hr]`, `Cycle Nr.`, `Time [s]`, `Temp. [°C]`), the melted well name
and the measurement value. -/
structure TecanRow where
  timeHr : Option ℚ
  cycle : Cell
  timeS : Cell
  temp : Cell
  well : String
  value : Cell
deriving DecidableEq, Repr

/-- One tidied tecan measurement sub-table. -/
structure TBlock where
  name : String
  rows : List TecanRow
deriving DecidableEq, Repr

/-- tecan.py lines 173–187 merged output: `df_out = df_list[0]` carrying its
full rows, inner-joined on `(well, Time [hr])` with the later measurements,
whose value columns accumulate in `extra` (in `names.tail` order). -/
structure TecanMerged where
  names : List String
  rows : List (TecanRow × List Cell)
deriving DecidableEq, Repr

/-- tecan.py lines 183–185: one `df_out.merge(mini_df, on=['well','Time [hr]'])`
step (pandas inner join: left order, each left row paired with every matching
right row; NaN keys match NaN keys). -/
def tecanMergeStep (acc : TecanMerged) (b : TBlock) : TecanMerged :=
  { names := acc.names ++ [b.name],
    rows := acc.rows.flatMap (fun re =>
      (b.rows.filter (fun s => decide (s.well = re.1.well) &&
        decide (s.timeHr = re.1.timeHr))).map
        (fun s => (re.1, re.2 ++ [s.value]))) }

/-- The body of the tecan per-measurement loop (tecan.py lines 140–171) for
boundary pair `(ind, nextInd)` of the header-stripped frame. -/
def tecanBlock (sheet : Sheet) (ind nextInd : Nat) : Except Err TBlock := do
  -- line 143: `str(df.iloc[inds[i]-1, 0])` on the header-stripped frame,
  -- no guard (wraps at index 0)
  let name ← ilocStr (sheet.drop 1) ((ind : ℤ) - 1) 0
  -- lines 147-153: `skiprows=inds[i]+1` (sheet rows), `nrows=inds[i+1]-inds[i]-2`
  let st := readSub sheet (ind + 1) ((nextInd : ℤ) - ind - 2)
  -- line 156: `dropna(how='all')`
  let rows1 := st.rows.filter (fun row => !(row.all (fun c => decide (c = Cell.na))))
  match st.headers.findIdx? (fun hdr => hdr = "Time [s]") with
  | none => .error (.keyError "Time [s]")
  | some sIdx =>
    match st.headers.findIdx? (fun hdr => hdr = "Cycle Nr."),
          st.headers.findIdx? (fun hdr => hdr = "Temp. [°C]") with
    | some cIdx, some tempIdx => do
        -- lines 159-160: `Time [hr]` column
        let hours ← rows1.mapM (fun r => cellDivRound3600 (r.getD sIdx Cell.na))
        -- lines 163-171: melt with the four id columns, rename to (well, m)
        let idNames := ["Time [hr]", "Cycle Nr.", "Time [s]", "Temp. [°C]"]
        let valueIdxs := (List.range st.headers.length).filter
          (fun j => !(idNames.contains (st.headers.getD j "")))
        let melted := valueIdxs.flatMap (fun j =>
          (hours.zip rows1).map (fun (t, row) =>
            { timeHr := t, cycle := row.getD cIdx Cell.na,
              timeS := row.getD sIdx Cell.na, temp := row.getD tempIdx Cell.na,
              well := st.headers.getD j "", value := row.getD j Cell.na : TecanRow }))
        .ok { name := name, rows := melted }
    | _, _ => .error (.keyError "Cycle Nr.")

/-- tecan.py lines 108–190 (`wrangle_growthcurves`): the first sheet row is
consumed as the header of the initial read (line 126), sentinels are
`'Cycle Nr.'` and `'End Time'` in column 0 of the remaining rows, the
measurement name is read (unguarded) from the row above each boundary,
`Time [hr]` is the seconds column divided by 3600 and rounded to the nearest
integer, and `merged=True` folds the per-measurement tables with inner joins —
raising `UnboundLocalError` when there is no measurement at all (`df_out` is
never assigned). -/
def tecanWrangle (sheet : Sheet) (merged : Bool) :
    Except Err (TecanMerged ⊕ List TBlock) := do
  -- line 126: `pd.read_excel(filename, sep=',', sheet_name=0)` (header row 0)
  let data := sheet.drop 1
  -- line 132: `df.columns[0]` raises IndexError on an empty (0-column) frame
  if frameCols sheet = 0 then .error .indexError
  else
  -- lines 129-132
  let inds := sentinelRows data 0 ["Cycle Nr.", "End Time"]
  let bounds := inds.zip (inds.drop 1)
  let blocks ← bounds.mapM (fun (ind, nextInd) => tecanBlock sheet ind nextInd)
  -- lines 173-190
  if merged then
    match blocks with
    | [] => .error .unboundLocal
    | b0 :: rest =>
        .ok (Sum.inl (rest.foldl tecanMergeStep
          { names := [b0.name], rows := b0.rows.map (fun r => (r, [])) }))
  else
    .ok (Sum.inr blocks)

/-- A minimal tecan export: one measurement (`OD600`) with a single reading of
well `A1` at `Time [s] = 1800` (i.e. the timestamp `0:30:00`). -/
def tecanC2Sheet : Sheet :=
  [[Cell.str "x"],
   [Cell.str "OD600"],
   [Cell.str "Cycle Nr.", Cell.str "Time [s]", Cell.str "Temp. [°C]", Cell.str "A1"],
   [Cell.num 1, Cell.num 1800, Cell.num 25, Cell.num (1/10)],
   [Cell.na],
   [Cell.str "End Time"]]

/-- A minimal new-layout biotek export: one measurement named by the row two
above the `Time` sentinel, wells read from the sentinel header row. -/
def biotekNewSheet : Sheet :=
  [[Cell.str "OD600:600"],
   [],
   [Cell.na, Cell.str "Time", Cell.str "T° OD600", Cell.str "A1"],
   [Cell.na, Cell.str "0:30:00", Cell.num 25, Cell.num (1/10)],
   [Cell.na, Cell.str "1:00:00", Cell.num 25, Cell.num (1/5)]]

/-- A minimal spectramax export: name cells in columns 5 and 15 of the row
above the `Time` sentinel, closed by a `~End` sentinel. -/
def spectramaxSheet : Sheet :=
  [[Cell.na, Cell.na, Cell.na, Cell.na, Cell.na, Cell.str "Lum", Cell.na, Cell.na,
    Cell.na, Cell.na, Cell.na, Cell.na, Cell.na, Cell.na, Cell.na, Cell.str "570"],
   [Cell.str "Time", Cell.str "Temperature(¡C)", Cell.str "A1"],
   [Cell.str "1:00:00", Cell.num 37, Cell.num 2],
   [Cell.na],
   [Cell.na],
   [Cell.str "~End"]]

/-- A new-layout biotek export whose `Time` sentinel sits at row index 1:
the name guard `m_inds[i]-1 >= 0` passes, yet the name is read from
`iloc[1-2, 0] = iloc[-1, 0]` — the last sheet row. -/
def biotekWrapSheet : Sheet :=
  [[Cell.str "junk"],
   [Cell.na, Cell.str "Time", Cell.str "A1"],
   [Cell.na, Cell.str "0:00:00", Cell.num 1],
   [Cell.str "LASTROW", Cell.str "0:01:00", Cell.num 2]]

/-- A filled-out legend template: one row per (variable, plate-row-letter)
with its value cells (strings or NaN, `dtype=str`). -/
structure CondTemplate where
  rows : List (String × String × List (Option String))
deriving DecidableEq, Repr

/-- The number of numbered value columns of the template frame (rows are
NaN-padded to the widest). -/
def tmplWidth (t : CondTemplate) : Nat :=
  (t.rows.map (fun r => r.2.2.length)).foldl max 0

/-- A legend cell after pivoting/splitting: missing, text, or a parsed float. -/
inductive Val where
  | na : Val
  | s (v : String) : Val
  | q (v : ℚ) : Val
deriving DecidableEq, Repr

def optStrVal : Option String → Val
  | none => Val.na
  | some s => Val.s s

/-- The tidy legend frame: the well index and the named columns (each column
aligned with `wells`). -/
structure LegendDF where
  wells : List String
  cols : List (String × List Val)
deriving DecidableEq, Repr

/-- `df[name]`: the first column with that label; `KeyError` when absent. -/
def getCol (df : LegendDF) (name : String) : Except Err (List Val) :=
  match df.cols.find? (fun c => decide (c.1 = name)) with
  | some c => .ok c.2
  | none => .error (.keyError name)

/-- `df[name] = vals`: replace the column in place when it exists, else append. -/
def setCol (df : LegendDF) (name : String) (vals : List Val) : LegendDF :=
  if df.cols.any (fun c => decide (c.1 = name)) then
    { df with cols := df.cols.map (fun c => if c.1 = name then (name, vals) else c) }
  else
    { df with cols := df.cols ++ [(name, vals)] }

/-- `df.drop(columns=[name])`: `KeyError` when absent. -/
def dropCol (df : LegendDF) (name : String) : Except Err LegendDF :=
  if df.cols.any (fun c => decide (c.1 = name)) then
    .ok { df with cols := df.cols.filter (fun c => !(decide (c.1 = name))) }
  else .error (.keyError name)

/-- Split at the first occurrence of a (nonempty) separator substring:
Python `s.split(sep, 1)` when `sep` occurs. -/
def splitOnceStr (sep : List Char) : List Char → Option (List Char × List Char)
  | [] => none
  | c :: rest =>
      if sep.isPrefixOf (c :: rest) then some ([], (c :: rest).drop sep.length)
      else (splitOnceStr sep rest).map (fun p => (c :: p.1, p.2))

/-- `series.str.split(delimiter, n=1, expand=True)` on one cell: NaN stays
(NaN, NaN); a string without the delimiter keeps only part 0. -/
def valSplitOnce (delim : String) : Val → Option String × Option String
  | Val.na => (none, none)
  | Val.q _ => (none, none)
  | Val.s s =>
      match splitOnceStr delim.toList s.toList with
      | some (a, b) => (some (String.mk a), some (String.mk b))
      | none => (some s, none)

/-- Python `name.rstrip().lstrip()`. -/
def pyStrip (s : String) : String :=
  String.mk (((s.toList.dropWhile Char.isWhitespace).reverse.dropWhile
    Char.isWhitespace).reverse)

/-- `astype(float)` on one optional string (NaN passes through, non-numeric
text raises). -/
def valFloat : Option String → Except Err Val
  | none => .ok Val.na
  | some s =>
      match pyFloat? s.toList with
      | some q => .ok (Val.q q)
      | none => .error .floatCast

/-- Python `s.split(',')` (all occurrences, keeping empty parts). -/
def splitCommas (s : String) : List String :=
  (s.toList.splitOn ',').map String.mk

/-- Line 89: `conditions[1].str.split(',', expand=True)` — the comma parts of
each non-missing remainder. -/
def concSplitParts (conds1 : List (Option String)) : List (Option (List String)) :=
  conds1.map (fun c? => c?.map splitCommas)

/-- The number of expanded concentration columns: the widest split among the
non-missing remainders. -/
def concWidth (conds1 : List (Option String)) : Nat :=
  ((concSplitParts conds1).filterMap id).foldl (fun a l => max a l.length) 0

/-- Column `i` of the expanded concentration frame, cast to float
(`concs.astype('float')`): missing remainders and short splits give NaN. -/
def concFloatCol (conds1 : List (Option String)) (i : Nat) : Except Err (List Val) :=
  (concSplitParts conds1).mapM (fun c? =>
    match c? with
    | none => valFloat none
    | some parts =>
        match parts.get? i with
        | none => valFloat none
        | some p => valFloat (some p))

/-- The verbose-condition branch of `plate_condmap` (biotek.py lines 80–103):
check all non-missing condition names coincide, split the unique name on
commas, expand the concentration remainders on commas, check the counts
match, cast to float, rename to `<trimmed name> Conc. (µM)`, and drop the
`Condition` and `Condition Conc. (µM)` columns. -/
def condVerboseBranch (df : LegendDF) (conds0 conds1 : List (Option String)) :
    Except Err LegendDF :=
  -- lines 82-83: distinct non-null name parts
  let namesArray := (conds0.filterMap id).dedup
  if 1 < namesArray.length then .error (.notVerboseNames namesArray)
  else
    match namesArray with
    | [] => .error .indexError   -- `names_array[0]` on an empty array
    | n0 :: _ =>
      -- line 87: `names = names_array[0].split(',')`
      let names := splitCommas n0
      -- lines 91-92
      if names.length ≠ concWidth conds1 then
        .error (.notVerboseCount names.length (concWidth conds1))
      else do
        -- lines 94-98: rename and cast to float
        let colNames := names.map (fun n => pyStrip n ++ " Conc. (µM)")
        let cols ← (List.range (concWidth conds1)).mapM (concFloatCol conds1)
        -- line 99: `pd.concat([df, concs], axis=1)`
        let df := (colNames.zip cols).foldl (fun d nc => setCol d nc.1 nc.2) df
        -- lines 102-103
        let df ← dropCol df "Condition"
        let df ← dropCol df "Condition Conc. (µM)"
        .ok df

/-- biotek.py lines 59–61: when any medium cell carried the delimiter, parse
the remainder as float into `Medium Conc. (mM)`. -/
def condmapMediumConc (df : LegendDF) (media : List (Option String × Option String)) :
    Except Err LegendDF :=
  if media.any (fun p => p.2.isSome) then
    (media.mapM (fun p => valFloat p.2)).map (fun concs =>
      setCol df "Medium Conc. (mM)" concs)
  else pure df

/-- biotek.py lines 74–103: when any condition cell carried the delimiter, add
the `Condition Conc. (µM)` string column, and in verbose mode run the
verbose expansion. -/
def condmapCondPart (verbose : Bool) (df : LegendDF)
    (conds : List (Option String × Option String)) : Except Err LegendDF :=
  if conds.any (fun p => p.2.isSome) then
    let df := setCol df "Condition Conc. (µM)" (conds.map (fun p => optStrVal p.2))
    if verbose then condVerboseBranch df (conds.map (·.1)) (conds.map (·.2))
    else pure df
  else pure df

/-- `plate_condmap` after the pivot (biotek.py lines 52–106): split the medium
and condition compound columns on the delimiter, parse the medium
concentration as float, and (in verbose mode) expand the condition columns. -/
def condmapSplit (verbose : Bool) (delim : String) (df : LegendDF) :
    Except Err LegendDF := do
  -- lines 52-56: split the medium column
  let mediumCol ← getCol df "Medium; Concentration (mM)"
  let media := mediumCol.map (valSplitOnce delim)
  let df := setCol df "Medium" (media.map (fun p => optStrVal p.1))
  -- lines 59-61: medium concentration, when any cell had the delimiter
  let df ← condmapMediumConc df media
  -- line 64
  let df ← dropCol df "Medium; Concentration (mM)"
  -- lines 67-71: split the condition column
  let condCol ← getCol df "Condition; Concentration (µM)"
  let conds := condCol.map (valSplitOnce delim)
  let df := setCol df "Condition" (conds.map (fun p => optStrVal p.1))
  -- lines 74-103
  let df ← condmapCondPart verbose df conds
  -- line 106
  let df ← dropCol df "Condition; Concentration (µM)"
  pure df

/-- The shared `plate_condmap` pipeline: melt the fixed 12 numbered columns
(`value_vars=[1,...,12]`; pandas melt raises when any is absent), build well
identifiers, optionally drop value-less rows (biotek only), pivot to one row
per well (pandas raises on duplicate (well, variable) pairs), then split the
compound descriptor columns. -/
def condmapCore (dropnaStep verbose : Bool) (delim : String) (t : CondTemplate) :
    Except Err LegendDF :=
  -- melt: `value_vars=[1,2,...,12]` must all be present
  if tmplWidth t < 12 then .error .meltMissing
  else
    let melted0 : List (String × String × Option String) :=
      (List.range 12).flatMap (fun c =>
        t.rows.map (fun r => (r.1, r.2.1 ++ toString (c + 1), r.2.2.getD c none)))
    -- biotek.py line 44: `df = df.dropna(axis=0)` (absent in tecan/spectramax)
    let melted : List (String × String × Option String) :=
      if dropnaStep then melted0.filter (fun e => e.2.2.isSome) else melted0
    -- pivot(index=well, columns=variable)
    if (melted.map (fun e => (e.2.1, e.1))).Nodup then
      let wells := (melted.map (fun e => e.2.1)).dedup
      let vars := (melted.map (fun e => e.1)).dedup
      let df : LegendDF :=
        { wells := wells,
          cols := vars.map (fun v => (v, wells.map (fun w =>
            match melted.find? (fun e => decide (e.1 = v) && decide (e.2.1 = w)) with
            | some e => optStrVal e.2.2
            | none => Val.na))) }
      condmapSplit verbose delim df
    else .error .pivotDup

/-- biotek.plate_condmap (biotek.py lines 6–108): drops value-less rows. -/
def biotekPlateCondmap (t : CondTemplate) (verbose : Bool) (delimiter : String) :
    Except Err LegendDF := condmapCore true verbose delimiter t

/-- tecan.plate_condmap (tecan.py lines 4–105): no dropna step. -/
def tecanPlateCondmap (t : CondTemplate) (verbose : Bool) (delimiter : String) :
    Except Err LegendDF := condmapCore false verbose delimiter t

/-- spectramax.plate_condmap (spectramax.py lines 12–113): no dropna step. -/
def spectramaxPlateCondmap (t : CondTemplate) (verbose : Bool) (delimiter : String) :
    Except Err LegendDF := condmapCore false verbose delimiter t

/-! ## import_growthcurves (biotek.py 263–294, spectramax.py 259–288, tecan.py 192–219) -/

/-- The legend records matching a well: one per position of the legend index
equal to the well (the pandas join key lookup). -/
def legendRowsFor (legend : LegendDF) (w : String) : List (List Val) :=
  ((List.range legend.wells.length).filter
    (fun p => decide (legend.wells.getD p "" = w))).map
    (fun p => legend.cols.map (fun c => c.2.getD p Val.na))

/-- pandas `df.merge(condition_df, on=<well>)` (inner join, the default):
left rows in order, each paired with every legend record of its well;
unmatched rows on either side are silently dropped. -/
def mergeWithLegend {α : Type} (key : α → String) (rows : List α)
    (legend : LegendDF) : List (α × List Val) :=
  rows.flatMap (fun r => (legendRowsFor legend (key r)).map (fun vals => (r, vals)))

/-- One biotek/spectramax Measurement Block annotated with legend columns. -/
structure AnnBlock where
  name : String
  cols : List String
  rows : List ((ℚ × String × ℚ) × List Val)
deriving DecidableEq, Repr

def annotateBlock (b : Block) (legend : LegendDF) : AnnBlock :=
  { name := b.name,
    cols := legend.cols.map (·.1),
    rows := mergeWithLegend (fun r => r.2.1) b.rows legend }

/-- biotek.import_growthcurves (biotek.py lines 263–294). NOTE line 288: the
source calls `wrangle_growthcurves(data_file_path, new_bioteks=True)` with a
hard-coded `True`, ignoring its own `new_bioteks` argument. -/
def biotekImport (dataSheet : Sheet) (tmpl : CondTemplate)
    (new_bioteks verbose : Bool) : Except Err (List AnnBlock) := do
  let dfData ← biotekWrangle dataSheet true
  let conditionDf ← biotekPlateCondmap tmpl verbose ";"
  pure (dfData.map (fun b => annotateBlock b conditionDf))

/-- spectramax.import_growthcurves (spectramax.py lines 259–288). -/
def spectramaxImport (dataSheet : Sheet) (tmpl : CondTemplate) (verbose : Bool) :
    Except Err (List AnnBlock) := do
  let dfData ← spectramaxWrangle dataSheet
  let conditionDf ← spectramaxPlateCondmap tmpl verbose ";"
  pure (dfData.map (fun b => annotateBlock b conditionDf))

/-- The tecan merged table annotated with legend columns. -/
structure TecanAnn where
  names : List String
  cols : List String
  rows : List ((TecanRow × List Cell) × List Val)
deriving DecidableEq, Repr

/-- tecan.import_growthcurves (tecan.py lines 192–219). NOTE line 217: the
source calls `plate_condmap(condition_map_file_path)` with defaults — the
`verbose` argument is not forwarded. -/
def tecanImport (dataSheet : Sheet) (tmpl : CondTemplate) (verbose : Bool) :
    Except Err TecanAnn := do
  let dfData ← tecanWrangle dataSheet true
  let conditionDf ← tecanPlateCondmap tmpl false ";"
  match dfData with
  | Sum.inl merged =>
      pure { names := merged.names, cols := conditionDf.cols.map (·.1),
             rows := mergeWithLegend (fun re => re.1.well) merged.rows conditionDf }
  -- unreachable: `merged=True` never returns the tuple form
  | Sum.inr _ => .error .typeError

/-! ## Well-index preservation through the legend column operations -/

/-- A 12-column template in which well `A1` has no descriptor at all and well
`A2` is fully described. -/
def condTemplate9 : CondTemplate := { rows := [
  ("Medium; Concentration (mM)", "A",
    [none, some "LB; 5", none, none, none, none, none, none, none, none, none, none]),
  ("Condition; Concentration (µM)", "A",
    [none, some "PI; 5", none, none, none, none, none, none, none, none, none, none]) ] }

/-- A 12-column template with only well `A1` filled. -/
def condTemplate12 : CondTemplate := { rows := [
  ("Medium; Concentration (mM)", "A",
    [some "LB; 5", none, none, none, none, none, none, none, none, none, none, none]),
  ("Condition; Concentration (µM)", "A",
    [some "PI; 5", none, none, none, none, none, none, none, none, none, none, none]) ] }

/-- An 8-column-by-8-row-style template (8 value columns). -/
def condTemplate8 : CondTemplate := { rows := [
  ("Medium; Concentration (mM)", "A",
    [some "LB; 5", none, none, none, none, none, none, none]),
  ("Condition; Concentration (µM)", "A",
    [some "PI; 5", none, none, none, none, none, none, none]) ] }

/-- A minimal OLD-layout biotek export: sentinel `Kinetic read` in column 0,
whose column also carries the timestamps. -/
def biotekOldSheet : Sheet :=
  [[Cell.str "OD600"],
   [Cell.str "Kinetic read", Cell.str "A1"],
   [Cell.str "0:30:00", Cell.num (1/5)]]

theorem digit_of_isDigits {l : List Char} (h : isDigits l = true) {c : Char} (hc : c ∈ l) :
    isPyDigit c = true := by
  unfold isDigits at h
  simp only [Bool.and_eq_true, List.all_eq_true] at h
  exact h.2 c hc

theorem ne_nil_of_isDigits {l : List Char} (h : isDigits l = true) : l ≠ [] := by
  unfold isDigits at h
  simp only [Bool.and_eq_true] at h
  intro hnil
  simp [hnil] at h

theorem colon_not_mem_of_isDigits {l : List Char} (h : isDigits l = true) : ':' ∉ l := by
  intro hc
  exact absurd (digit_of_isDigits h hc) (by decide)

theorem space_not_mem_of_isDigits {l : List Char} (h : isDigits l = true) : ' ' ∉ l := by
  intro hc
  exact absurd (digit_of_isDigits h hc) (by decide)

theorem not_ws_of_isDigits {l : List Char} (h : isDigits l = true) {c : Char} (hc : c ∈ l) :
    c.isWhitespace = false := by
  have hd := digit_of_isDigits h hc
  cases hq : c.isWhitespace
  · rfl
  · exfalso
    simp only [Char.isWhitespace, Bool.or_eq_true, decide_eq_true_eq] at hq
    rcases hq with ((rfl | rfl) | rfl) | rfl <;> exact absurd hd (by decide)

theorem splitFirst_of_not_mem {sep : Char} {h : List Char} (hs : sep ∉ h) (t : List Char) :
    splitFirst sep (h ++ sep :: t) = some (h, t) := by
  induction h with
  | nil => simp [splitFirst]
  | cons c h ih =>
      have hc : c ≠ sep := by intro hEq; exact hs (hEq ▸ List.mem_cons_self c h)
      have hs' : sep ∉ h := fun hm => hs (List.mem_cons_of_mem c hm)
      simp [splitFirst, hc, ih hs']

theorem pySplitWs_of_no_ws {l : List Char} (hne : l ≠ [])
    (hws : ∀ c ∈ l, c.isWhitespace = false) : pySplitWs l = [l] := by
  induction l with
  | nil => exact absurd rfl hne
  | cons c rest ih =>
      have hc : c.isWhitespace = false := hws c (List.mem_cons_self c rest)
      cases rest with
      | nil => simp [pySplitWs, hc]
      | cons d rest' =>
          have hd : d.isWhitespace = false := hws d (by simp)
          have := ih (by simp) (fun x hx => hws x (List.mem_cons_of_mem c hx))
          simp [pySplitWs, hc, hd] at this ⊢
          simp [this]

theorem pySplitWs_two_tokens {d t : List Char} (hd : d ≠ []) (ht : t ≠ [])
    (hdw : ∀ c ∈ d, c.isWhitespace = false) (htw : ∀ c ∈ t, c.isWhitespace = false) :
    pySplitWs (d ++ ' ' :: t) = [d, t] := by
  induction d with
  | nil => exact absurd rfl hd
  | cons c rest ih =>
      have hc : c.isWhitespace = false := hdw c (List.mem_cons_self c rest)
      cases rest with
      | nil =>
          have hsp : (' ' : Char).isWhitespace = true := by decide
          have hts : pySplitWs (' ' :: t) = [t] := by
            rw [show pySplitWs (' ' :: t) = pySplitWs t from by simp [pySplitWs, hsp]]
            exact pySplitWs_of_no_ws ht htw
          simp only [List.nil_append, List.singleton_append]
          rw [show pySplitWs (c :: ' ' :: t) = [c] :: pySplitWs (' ' :: t) from by
            simp [pySplitWs, hc, hsp]]
          rw [hts]
      | cons e rest' =>
          have he : e.isWhitespace = false := hdw e (by simp)
          have ihres := ih (by simp) (fun x hx => hdw x (List.mem_cons_of_mem c hx))
          simp only [List.cons_append] at ihres ⊢
          rw [show pySplitWs (c :: e :: (rest' ++ ' ' :: t)) =
              match pySplitWs (e :: (rest' ++ ' ' :: t)) with
              | [] => [[c]]
              | u :: us => (c :: u) :: us from by
            simp [pySplitWs, hc, he]]
          rw [ihres]

theorem pyInt?_of_digits {l : List Char} (h : isDigits l = true) :
    pyInt? l = some (natOfDigits l : ℤ) := by
  cases l with
  | nil => exact absurd rfl (ne_nil_of_isDigits h)
  | cons c rest =>
      have hc := digit_of_isDigits h (List.mem_cons_self c rest)
      have h1 : c ≠ '-' := fun hEq => absurd (hEq ▸ hc) (by decide)
      have h2 : c ≠ '+' := fun hEq => absurd (hEq ▸ hc) (by decide)
      simp [pyInt?, h1, h2, h]

theorem str2hoursTail_eval {h m s : List Char} (a : ℤ)
    (hh : isDigits h = true) (hm : isDigits m = true) (hs : isDigits s = true)
    (hm60 : natOfDigits m < 60) (hs60 : natOfDigits s < 60) :
    str2hoursTail (h ++ ':' :: (m ++ ':' :: s)) a =
      .ok ((natOfDigits h : ℚ) + (a : ℚ) + (natOfDigits m : ℚ) / 60 +
        (natOfDigits s : ℚ) / 3600) := by
  have h1 := splitFirst_of_not_mem (colon_not_mem_of_isDigits hh) (m ++ ':' :: s)
  have h2 := splitFirst_of_not_mem (colon_not_mem_of_isDigits hm) s
  have hmq : (natOfDigits m : ℚ) < 60 := by exact_mod_cast hm60
  have hsq : (natOfDigits s : ℚ) < 60 := by exact_mod_cast hs60
  unfold str2hoursTail
  rw [h1]
  dsimp only
  rw [h2]
  dsimp only
  simp [hh, hm, hs, hmq, hsq]

theorem str2hoursTail_nondigit {h m s : List Char} (a : ℤ)
    (hch : ':' ∉ h) (hcm : ':' ∉ m)
    (hnd : (isDigits h && isDigits m && isDigits s) = false) :
    str2hoursTail (h ++ ':' :: (m ++ ':' :: s)) a = .error Err.formatTime := by
  have h1 := splitFirst_of_not_mem hch (m ++ ':' :: s)
  have h2 := splitFirst_of_not_mem hcm s
  unfold str2hoursTail
  rw [h1]
  dsimp only
  rw [h2]
  dsimp only
  simp [hnd]

theorem str2hoursTail_range {h m s : List Char} (a : ℤ)
    (hh : isDigits h = true) (hm : isDigits m = true) (hs : isDigits s = true)
    (hr : 60 ≤ natOfDigits m ∨ 60 ≤ natOfDigits s) :
    str2hoursTail (h ++ ':' :: (m ++ ':' :: s)) a = .error Err.formatRange := by
  have h1 := splitFirst_of_not_mem (colon_not_mem_of_isDigits hh) (m ++ ':' :: s)
  have h2 := splitFirst_of_not_mem (colon_not_mem_of_isDigits hm) s
  unfold str2hoursTail
  rw [h1]
  dsimp only
  rw [h2]
  dsimp only
  have : ¬((natOfDigits m : ℚ) < 60 ∧ (natOfDigits s : ℚ) < 60) := by
    rcases hr with hr | hr
    · intro hcon; exact absurd hcon.1 (by push_neg; exact_mod_cast hr)
    · intro hcon; exact absurd hcon.2 (by push_neg; exact_mod_cast hr)
  simp only [hh, hm, hs, Bool.and_self, Bool.not_true, Bool.false_eq_true, if_false,
    Bool.and_true, Bool.true_and]
  rw [if_pos]
  simp only [Bool.not_eq_true', Bool.and_eq_false_iff, decide_eq_false_iff_not, not_lt]
  rcases hr with hr | hr
  · exact Or.inl (by exact_mod_cast hr)
  · exact Or.inr (by exact_mod_cast hr)

/-- The time token `h:m:s` of a plain (day-less) time string contains no space,
so `str2hoursCore` takes the `accounted_hours = 0` branch. -/
theorem str2hoursCore_plain {h m s : List Char}
    (hsp : ' ' ∉ h ++ ':' :: (m ++ ':' :: s)) :
    str2hoursCore (h ++ ':' :: (m ++ ':' :: s)) =
      str2hoursTail (h ++ ':' :: (m ++ ':' :: s)) 0 := by
  unfold str2hoursCore
  rw [if_neg hsp]

theorem space_not_mem_time {h m s : List Char}
    (hh : isDigits h = true) (hm : isDigits m = true) (hs : isDigits s = true) :
    ' ' ∉ h ++ ':' :: (m ++ ':' :: s) := by
  intro hc
  simp only [List.mem_append, List.mem_cons] at hc
  rcases hc with hc | hc | hc | hc | hc
  · exact space_not_mem_of_isDigits hh hc
  · exact absurd hc (by decide)
  · exact space_not_mem_of_isDigits hm hc
  · exact absurd hc (by decide)
  · exact space_not_mem_of_isDigits hs hc

theorem no_ws_time {h m s : List Char}
    (hh : isDigits h = true) (hm : isDigits m = true) (hs : isDigits s = true) :
    ∀ c ∈ h ++ ':' :: (m ++ ':' :: s), c.isWhitespace = false := by
  intro c hc
  simp only [List.mem_append, List.mem_cons] at hc
  rcases hc with hc | hc | hc | hc | hc
  · exact not_ws_of_isDigits hh hc
  · subst hc; decide
  · exact not_ws_of_isDigits hm hc
  · subst hc; decide
  · exact not_ws_of_isDigits hs hc

/-- `str2hoursCore` on a day-prefixed string `d ++ " " ++ t`: splits off the
day token and carries `int(d[-2:]) * 24` hours into the time conversion. -/
theorem str2hoursCore_day {d t : List Char} (hd : d ≠ []) (ht : t ≠ [])
    (hdw : ∀ c ∈ d, c.isWhitespace = false) (htw : ∀ c ∈ t, c.isWhitespace = false)
    (hdd : isDigits (d.drop (d.length - 2)) = true) :
    str2hoursCore (d ++ ' ' :: t) =
      str2hoursTail t ((natOfDigits (d.drop (d.length - 2)) : ℤ) * 24) := by
  have hsp : ' ' ∈ d ++ ' ' :: t := by simp
  have hsplit := pySplitWs_two_tokens hd ht hdw htw
  unfold str2hoursCore
  rw [if_pos hsp, hsplit]
  dsimp only
  rw [pyInt?_of_digits hdd]

/-- C1: for every time string `H:MM:SS` whose three colon-separated components
are digit strings (Python `str.isdigit`; ASCII digit strings included) with
minutes and seconds in `[0,60)`, `_str2hours`
returns `hours + minutes/60 + seconds/3600` rounded to 3 decimal places; and
for every space-separated day-prefixed string, 24 times the integer value of
the last two characters of the day token is added as carried hours before
rounding. -/
theorem C1_timestamp_normalizer (h m s d : List Char)
    (hh : isDigits h = true) (hm : isDigits m = true) (hs : isDigits s = true)
    (hm60 : natOfDigits m < 60) (hs60 : natOfDigits s < 60)
    (hdne : d ≠ []) (hdw : ∀ c ∈ d, c.isWhitespace = false)
    (hdd : isDigits (d.drop (d.length - 2)) = true) :
    str2hoursL (h ++ ':' :: (m ++ ':' :: s)) =
      .ok (round3 ((natOfDigits h : ℚ) + (natOfDigits m : ℚ) / 60 +
        (natOfDigits s : ℚ) / 3600)) ∧
    str2hoursL (d ++ ' ' :: (h ++ ':' :: (m ++ ':' :: s))) =
      .ok (round3 ((natOfDigits (d.drop (d.length - 2)) : ℚ) * 24 +
        (natOfDigits h : ℚ) + (natOfDigits m : ℚ) / 60 +
        (natOfDigits s : ℚ) / 3600)) := by
  have hne : h ++ ':' :: (m ++ ':' :: s) ≠ [] := by simp
  constructor
  · unfold str2hoursL
    rw [str2hoursCore_plain (space_not_mem_time hh hm hs),
        str2hoursTail_eval 0 hh hm hs hm60 hs60]
    simp only [Except.map]
    congr 2
    push_cast
    ring
  · unfold str2hoursL
    rw [str2hoursCore_day hdne hne hdw (no_ws_time hh hm hs) hdd,
        str2hoursTail_eval _ hh hm hs hm60 hs60]
    simp only [Except.map]
    congr 2
    push_cast
    ring

theorem C1_timestamp_normalizer_witness :
    str2hours "2:30:00" = .ok (5/2) ∧ str2hours "Day02 01:00:00" = .ok 49 := by
  have H1 := C1_timestamp_normalizer ['2'] ['3','0'] ['0','0'] ['0']
    (by decide) (by decide) (by decide) (by decide) (by decide) (by decide)
    (by decide) (by decide)
  have H2 := C1_timestamp_normalizer ['0','1'] ['0','0'] ['0','0'] ['D','a','y','0','2']
    (by decide) (by decide) (by decide) (by decide) (by decide) (by decide)
    (by decide) (by decide)
  constructor
  · show str2hoursL "2:30:00".toList = _
    rw [show "2:30:00".toList = ['2'] ++ ':' :: (['3','0'] ++ ':' :: ['0','0']) from by decide]
    rw [H1.1]
    decide
  · show str2hoursL "Day02 01:00:00".toList = _
    rw [show "Day02 01:00:00".toList =
      ['D','a','y','0','2'] ++ ' ' :: (['0','1'] ++ ':' :: (['0','0'] ++ ':' :: ['0','0']))
      from by decide]
    rw [H2.2]
    decide

/-- C6 (amended): `_str2hours` fails with an error whenever any of the
hours/minutes/seconds components is not a digit string in Python's
`str.isdigit` sense — which accepts Unicode decimal digits of any script, not
only ASCII, so `'a:00:00'` fails while `'٣:00:00'` succeeds with `3.0` — and
fails with a range error whenever minutes or seconds is 60 or more; the digit
check is applied before the range check. -/
theorem C6_normalizer_rejects (h m s : List Char)
    (hsp : ' ' ∉ h ++ ':' :: (m ++ ':' :: s))
    (hch : ':' ∉ h) (hcm : ':' ∉ m) :
    ((isDigits h && isDigits m && isDigits s) = false →
      ∃ e, str2hoursL (h ++ ':' :: (m ++ ':' :: s)) = .error e) ∧
    ((isDigits h && isDigits m && isDigits s) = true →
      (60 ≤ natOfDigits m ∨ 60 ≤ natOfDigits s) →
      str2hoursL (h ++ ':' :: (m ++ ':' :: s)) = .error Err.formatRange) ∧
    str2hours "1:75:00" = .error Err.formatRange ∧
    str2hours "a:00:00" = .error Err.formatTime ∧
    str2hours "a:75:00" = .error Err.formatTime ∧
    str2hours "٣:00:00" = .ok 3 := by
  refine ⟨fun hnd => ?_, fun hd hr => ?_, by decide, by decide, by decide, by decide⟩
  · refine ⟨Err.formatTime, ?_⟩
    unfold str2hoursL
    rw [str2hoursCore_plain hsp, str2hoursTail_nondigit 0 hch hcm hnd]
    rfl
  · simp only [Bool.and_eq_true] at hd
    unfold str2hoursL
    rw [str2hoursCore_plain hsp, str2hoursTail_range 0 hd.1.1 hd.1.2 hd.2 hr]
    rfl

theorem C6_normalizer_rejects_witness :
    str2hoursL (['1'] ++ ':' :: (['7','5'] ++ ':' :: ['0','0'])) =
      .error Err.formatRange ∧
    (∃ e, str2hoursL (['a'] ++ ':' :: (['0','0'] ++ ':' :: ['0','0'])) =
      .error e) :=
  ⟨(C6_normalizer_rejects ['1'] ['7','5'] ['0','0'] (by decide) (by decide)
      (by decide)).2.1 (by decide) (Or.inl (by decide)),
   (C6_normalizer_rejects ['a'] ['0','0'] ['0','0'] (by decide) (by decide)
      (by decide)).1 (by decide)⟩

/-- C6 counterexample: Python's `str.isdigit` and `float` accept Unicode
decimal digits of any script, so `_str2hours` does NOT fail on every string
with a component that is not an ASCII digit string: `'٣:00:00'`
(Arabic-Indic three, U+0663) succeeds and returns `3.0`. -/
theorem C6_counterexample_unicode_digit :
    (['٣'].all Char.isDigit) = false ∧
    isDigits ['٣'] = true ∧
    str2hours "٣:00:00" = .ok 3 := by
  refine ⟨by decide, by decide, by decide⟩

/-! ## Monotonicity of the rounding helpers -/

theorem le_roundHalfEven (q : ℚ) : ⌊q⌋ ≤ roundHalfEven q := by
  unfold roundHalfEven
  split_ifs <;> omega

theorem roundHalfEven_le (q : ℚ) : roundHalfEven q ≤ ⌊q⌋ + 1 := by
  unfold roundHalfEven
  split_ifs <;> omega

theorem roundHalfEven_eq_floor_of_lt_half {q : ℚ} (h : q - (⌊q⌋ : ℚ) < 1/2) :
    roundHalfEven q = ⌊q⌋ := by
  unfold roundHalfEven
  rw [if_pos h]

theorem roundHalfEven_eq_succ_of_half_lt {q : ℚ} (h : 1/2 < q - (⌊q⌋ : ℚ)) :
    roundHalfEven q = ⌊q⌋ + 1 := by
  unfold roundHalfEven
  rw [if_neg (by linarith), if_pos h]

/-- Round-half-to-even is monotone. -/
theorem roundHalfEven_mono {a b : ℚ} (hab : a ≤ b) :
    roundHalfEven a ≤ roundHalfEven b := by
  have hfl : ⌊a⌋ ≤ ⌊b⌋ := Int.floor_le_floor hab
  rcases eq_or_lt_of_le hfl with hf | hf
  · have hfc : ((⌊a⌋ : ℤ) : ℚ) = ((⌊b⌋ : ℤ) : ℚ) := by exact_mod_cast hf
    have hr : a - (⌊a⌋ : ℚ) ≤ b - (⌊b⌋ : ℚ) := by rw [← hfc]; linarith
    rcases lt_trichotomy (b - (⌊b⌋ : ℚ)) (1/2) with h1 | h1 | h1
    · rw [roundHalfEven_eq_floor_of_lt_half (lt_of_le_of_lt hr h1),
          roundHalfEven_eq_floor_of_lt_half h1, hf]
    · rcases lt_or_eq_of_le (hr.trans (le_of_eq h1)) with h2 | h2
      · rw [roundHalfEven_eq_floor_of_lt_half h2, hf]
        exact le_roundHalfEven b
      · have hab' : a = b := by
          have := h1 ▸ h2
          linarith [hfc, this]
        rw [hab']
    · rw [roundHalfEven_eq_succ_of_half_lt h1]
      calc roundHalfEven a ≤ ⌊a⌋ + 1 := roundHalfEven_le a
        _ = ⌊b⌋ + 1 := by rw [hf]
  · calc roundHalfEven a ≤ ⌊a⌋ + 1 := roundHalfEven_le a
      _ ≤ ⌊b⌋ := by omega
      _ ≤ roundHalfEven b := le_roundHalfEven b

/-- `round(·, 3)` is monotone. -/
theorem round3_mono {a b : ℚ} (hab : a ≤ b) : round3 a ≤ round3 b := by
  unfold round3
  have h1 : roundHalfEven (a * 1000) ≤ roundHalfEven (b * 1000) :=
    roundHalfEven_mono (by linarith)
  have h2 : ((roundHalfEven (a * 1000) : ℤ) : ℚ) ≤ ((roundHalfEven (b * 1000) : ℤ) : ℚ) := by
    exact_mod_cast h1
  linarith

/-! ## Sheets and sub-table reads

A raw spreadsheet as loaded by `pd.read_excel(..., header=None)`: a list of
rows of cells. pandas pads ragged rows with NaN to the frame width; we model a
missing trailing cell as `Cell.na` directly. -/

/-- C3 counterexample: on a sheet with no sentinel rows at all, tecan's
`wrangle_growthcurves` in its default merged mode does NOT return an empty
collection — it raises (`df_out` is returned without ever being assigned). -/
theorem C3_counterexample_tecan_merged_raises :
    sentinelRows (([[Cell.str "x"], [Cell.str "nothing"]] : Sheet).drop 1) 0
      ["Cycle Nr.", "End Time"] = [] ∧
    tecanWrangle [[Cell.str "x"], [Cell.str "nothing"]] true =
      .error Err.unboundLocal := by
  constructor
  · rfl
  · rfl

/-- C3 (amended): with no sentinel rows and a frame wide enough for the
sentinel-column lookup, `wrangle_growthcurves` returns an empty collection
without error for biotek (both layouts), spectramax and tecan with
`merged=False`; tecan's default merged mode instead raises an
`UnboundLocalError` because `df_out` is never assigned; and on frames too
narrow for the lookup, `df.columns[data_col]` itself raises `IndexError`
(at most one column under the new-biotek layout, zero columns otherwise)
before any sentinel search happens. -/
theorem C3_no_sentinels (sheet : Sheet)
    (hw : 1 < frameCols sheet)
    (h1 : sentinelRows sheet 1 ["Time"] = [])
    (h2 : sentinelRows sheet 0 ["Kinetic read"] = [])
    (h3 : sentinelRows sheet 0 ["Time", "~End"] = [])
    (h4 : sentinelRows (sheet.drop 1) 0 ["Cycle Nr.", "End Time"] = []) :
    biotekWrangle sheet true = .ok [] ∧
    biotekWrangle sheet false = .ok [] ∧
    spectramaxWrangle sheet = .ok [] ∧
    tecanWrangle sheet false = .ok (Sum.inr []) ∧
    tecanWrangle sheet true = .error Err.unboundLocal ∧
    (∀ s : Sheet, frameCols s ≤ 1 →
      biotekWrangle s true = .error Err.indexError) ∧
    (∀ s : Sheet, frameCols s = 0 →
      biotekWrangle s false = .error Err.indexError ∧
      spectramaxWrangle s = .error Err.indexError ∧
      tecanWrangle s false = .error Err.indexError ∧
      tecanWrangle s true = .error Err.indexError) := by
  have hw1 : ¬(frameCols sheet ≤ 1) := by omega
  have hw0 : ¬(frameCols sheet = 0) := by omega
  have hw0' : ¬(frameCols sheet ≤ 0) := by omega
  refine ⟨?_, ?_, ?_, ?_, ?_, ?_, ?_⟩
  · simp [biotekWrangle, hw1, h1] <;> rfl
  · simp [biotekWrangle, hw0', h2] <;> rfl
  · simp [spectramaxWrangle, hw0, h3] <;> rfl
  · simp only [List.drop_one] at h4
    simp [tecanWrangle, hw0, h4] <;> rfl
  · simp only [List.drop_one] at h4
    simp [tecanWrangle, hw0, h4] <;> rfl
  · intro s hs
    simp [biotekWrangle, hs]
  · intro s hs
    refine ⟨?_, ?_, ?_, ?_⟩
    · simp [biotekWrangle, Nat.le_of_eq hs]
    · simp [spectramaxWrangle, hs]
    · simp [tecanWrangle, hs]
    · simp [tecanWrangle, hs]

theorem C3_no_sentinels_witness :
    biotekWrangle [[Cell.str "w", Cell.str "x"]] true = .ok [] ∧
    biotekWrangle [[Cell.str "w", Cell.str "x"]] false = .ok [] ∧
    spectramaxWrangle [[Cell.str "w", Cell.str "x"]] = .ok [] ∧
    tecanWrangle [[Cell.str "w", Cell.str "x"]] false = .ok (Sum.inr []) ∧
    tecanWrangle [[Cell.str "w", Cell.str "x"]] true = .error Err.unboundLocal ∧
    biotekWrangle [[Cell.str "w"]] true = .error Err.indexError ∧
    spectramaxWrangle ([] : Sheet) = .error Err.indexError :=
  have H := C3_no_sentinels [[Cell.str "w", Cell.str "x"]]
    (by decide) rfl rfl rfl rfl
  ⟨H.1, H.2.1, H.2.2.1, H.2.2.2.1, H.2.2.2.2.1,
   H.2.2.2.2.2.1 [[Cell.str "w"]] (by decide),
   (H.2.2.2.2.2.2 ([] : Sheet) rfl).2.1⟩

/-! ## Inversion helpers for `Except`-valued list traversals -/

theorem mapM_ok_mem {α β : Type} {f : α → Except Err β} :
    ∀ {xs : List α} {ys : List β}, xs.mapM f = .ok ys →
      ∀ {y : β}, y ∈ ys → ∃ x ∈ xs, f x = .ok y := by
  intro xs
  induction xs with
  | nil =>
      intro ys h y hy
      simp only [List.mapM_nil, pure] at h
      cases h
      simp at hy
  | cons x xs ih =>
      intro ys h y hy
      rw [List.mapM_cons] at h
      cases hfx : f x with
      | error e => rw [hfx] at h; simp [bind, Except.bind] at h
      | ok b =>
          rw [hfx] at h
          cases hrest : xs.mapM f with
          | error e => rw [hrest] at h; simp [bind, Except.bind] at h
          | ok bs =>
              rw [hrest] at h
              simp only [Except.bind, bind, pure] at h
              cases h
              rcases List.mem_cons.1 hy with rfl | hy'
              · exact ⟨x, List.mem_cons_self x xs, hfx⟩
              · obtain ⟨x', hx', hfx'⟩ := ih hrest hy'
                exact ⟨x', List.mem_cons_of_mem x hx', hfx'⟩

theorem mapM_ok_zip {α β : Type} {f : α → Except Err β} :
    ∀ {xs : List α} {ys : List β}, xs.mapM f = .ok ys →
      ∀ {y : β} {x : α}, (y, x) ∈ ys.zip xs → f x = .ok y := by
  intro xs
  induction xs with
  | nil =>
      intro ys h y x hy
      simp only [List.mapM_nil, pure] at h
      cases h
      simp at hy
  | cons a xs ih =>
      intro ys h y x hy
      rw [List.mapM_cons] at h
      cases hfa : f a with
      | error e => rw [hfa] at h; simp [bind, Except.bind] at h
      | ok b =>
          rw [hfa] at h
          cases hrest : xs.mapM f with
          | error e => rw [hrest] at h; simp [bind, Except.bind] at h
          | ok bs =>
              rw [hrest] at h
              simp only [bind, Except.bind, pure] at h
              cases h
              rcases List.mem_cons.1 hy with heq | hy'
              · cases heq; exact hfa
              · exact ih hrest hy'

theorem mapM_ok_length {α β : Type} {f : α → Except Err β} :
    ∀ {xs : List α} {ys : List β}, xs.mapM f = .ok ys → ys.length = xs.length := by
  intro xs
  induction xs with
  | nil =>
      intro ys h
      simp only [List.mapM_nil, pure] at h
      cases h
      rfl
  | cons a xs ih =>
      intro ys h
      rw [List.mapM_cons] at h
      cases hfa : f a with
      | error e => rw [hfa] at h; simp [bind, Except.bind] at h
      | ok b =>
          rw [hfa] at h
          cases hrest : xs.mapM f with
          | error e => rw [hrest] at h; simp [bind, Except.bind] at h
          | ok bs =>
              rw [hrest] at h
              simp only [bind, Except.bind, pure] at h
              cases h
              simp [ih hrest]

theorem except_bind_ok {α β : Type} {e : Except Err α} {f : α → Except Err β} {b : β}
    (h : (e >>= f) = .ok b) : ∃ a, e = .ok a ∧ f a = .ok b := by
  cases e with
  | error err => simp [bind, Except.bind] at h
  | ok a => exact ⟨a, rfl, by simpa [bind, Except.bind] using h⟩

/-- `mapM` of a post-composed `Except.map`: the underlying traversal succeeds
and the results are mapped. -/
theorem mapM_map_comm {α β γ : Type} {f : α → Except Err β} {g : β → γ} :
    ∀ {xs : List α} {ys : List γ},
      xs.mapM (fun x => (f x).map g) = .ok ys →
      ∃ zs, xs.mapM f = .ok zs ∧ ys = zs.map g := by
  intro xs
  induction xs with
  | nil =>
      intro ys h
      simp only [List.mapM_nil, pure] at h
      cases h
      exact ⟨[], rfl, rfl⟩
  | cons a xs ih =>
      intro ys h
      rw [List.mapM_cons] at h
      obtain ⟨y, hy, h⟩ := except_bind_ok h
      obtain ⟨ysr, hysr, h⟩ := except_bind_ok h
      simp only [pure] at h
      cases h
      obtain ⟨zs, hzs, rfl⟩ := ih hysr
      cases hfa : f a with
      | error e => rw [hfa] at hy; simp [Except.map] at hy
      | ok b =>
          rw [hfa] at hy
          simp only [Except.map] at hy
          cases hy
          refine ⟨b :: zs, ?_, rfl⟩
          rw [List.mapM_cons, hfa, hzs]
          rfl

theorem snd_mem_of_mem_enum {α : Type} {l : List α} {i : ℕ} {x : α}
    (h : (i, x) ∈ l.enum) : x ∈ l := by
  have h2 : l[i]? = some x := List.mk_mem_enum_iff_getElem?.1 h
  exact List.getElem?_mem h2

/-! ## The per-well time series of a melted measurement table -/

theorem wellTimes_cons {α : Type} (w : String) (t : ℚ) (nm : String) (x : α)
    (l : List (ℚ × String × α)) :
    wellTimes w ((t, nm, x) :: l) =
      if nm = w then t :: wellTimes w l else wellTimes w l := by
  unfold wellTimes
  by_cases h : nm = w <;> simp [List.filter_cons, h]

theorem wellTimes_filter_sublist {α : Type} (w : String)
    (Q : ℚ × String × α → Bool) (l : List (ℚ × String × α)) :
    List.Sublist (wellTimes w (l.filter Q)) (wellTimes w l) := by
  unfold wellTimes
  exact ((List.filter_sublist l).filter _).map _

theorem wellTimes_filterMap_sublist (w : String)
    (l : List (ℚ × String × Option ℚ)) :
    List.Sublist
      (wellTimes w (l.filterMap (fun (t, w, v?) => v?.map (fun v => (t, w, v)))))
      (wellTimes w l) := by
  induction l with
  | nil => simp [wellTimes]
  | cons p rest ih =>
      obtain ⟨t, nm, v?⟩ := p
      cases v? with
      | none =>
          rw [show ((t, nm, (none : Option ℚ)) :: rest).filterMap
              (fun (t, w, v?) => v?.map (fun v => (t, w, v))) =
              rest.filterMap (fun (t, w, v?) => v?.map (fun v => (t, w, v))) from by
            simp [List.filterMap_cons]]
          rw [wellTimes_cons]
          split
          · exact ih.trans (List.sublist_cons_self _ _)
          · exact ih
      | some v =>
          rw [show ((t, nm, some v) :: rest).filterMap
              (fun (t, w, v?) => v?.map (fun v => (t, w, v))) =
              (t, nm, v) :: rest.filterMap
                (fun (t, w, v?) => v?.map (fun v => (t, w, v))) from by
            simp [List.filterMap_cons]]
          rw [wellTimes_cons, wellTimes_cons]
          split
          · exact List.Sublist.cons₂ _ ih
          · exact ih

theorem wellTimes_map_coerce (w : String) (l : List (ℚ × String × Cell)) :
    wellTimes w (l.map (fun (t, w, v) => (t, w, toNumeric v))) = wellTimes w l := by
  induction l with
  | nil => rfl
  | cons p rest ih =>
      obtain ⟨t, nm, c⟩ := p
      rw [List.map_cons]
      dsimp only
      rw [wellTimes_cons, wellTimes_cons, ih]

theorem wellTimes_append {α : Type} (w : String) (a b : List (ℚ × String × α)) :
    wellTimes w (a ++ b) = wellTimes w a ++ wellTimes w b := by
  unfold wellTimes
  rw [List.filter_append, List.map_append]

theorem wellTimes_flatMap {α β : Type} (w : String) (js : List β)
    (g : β → List (ℚ × String × α)) :
    wellTimes w (js.flatMap g) = js.flatMap (fun j => wellTimes w (g j)) := by
  induction js with
  | nil => rfl
  | cons j rest ih =>
      rw [List.flatMap_cons, List.flatMap_cons, wellTimes_append, ih]

theorem wellTimes_group (w nm : String) (j : ℕ) {hours : List ℚ}
    {rows : List (List Cell)} (hlen : hours.length = rows.length) :
    wellTimes w ((hours.zip rows).map
      (fun (t, row) => (t, nm, row.getD j Cell.na))) =
      if nm = w then hours else [] := by
  induction hours generalizing rows with
  | nil =>
      cases rows <;> simp [wellTimes, ite_self]
  | cons t hs ih =>
      cases rows with
      | nil => simp at hlen
      | cons r rs =>
          have hlen2 : hs.length = rs.length := by simpa using hlen
          rw [List.zip_cons_cons, List.map_cons]
          dsimp only
          rw [wellTimes_cons, ih hlen2]
          by_cases h : nm = w
          · rw [if_pos h, if_pos h, if_pos h]
          · rw [if_neg h, if_neg h, if_neg h]

theorem flatMap_if_nil {β : Type} (f : β → String) (w : String) (hours : List ℚ) :
    ∀ js : List β, w ∉ js.map f →
      js.flatMap (fun j => if f j = w then hours else []) = [] := by
  intro js
  induction js with
  | nil => intro _; rfl
  | cons j rest ih =>
      intro hw
      rw [List.flatMap_cons]
      have h1 : f j ≠ w := fun hEq => hw (by
        rw [List.map_cons]
        exact List.mem_cons.2 (Or.inl hEq.symm))
      rw [if_neg h1, List.nil_append]
      exact ih (fun hm => hw (by
        rw [List.map_cons]
        exact List.mem_cons.2 (Or.inr hm)))

theorem flatMap_if_sublist {β : Type} (f : β → String) (w : String) (hours : List ℚ) :
    ∀ js : List β, (js.map f).Nodup →
      List.Sublist (js.flatMap (fun j => if f j = w then hours else [])) hours := by
  intro js
  induction js with
  | nil => intro _; exact List.nil_sublist _
  | cons j rest ih =>
      intro hnd
      rw [List.map_cons, List.nodup_cons] at hnd
      rw [List.flatMap_cons]
      by_cases h : f j = w
      · rw [if_pos h, flatMap_if_nil f w hours rest (h ▸ hnd.1), List.append_nil]
      · rw [if_neg h, List.nil_append]
        exact ih hnd.2

/-- Reading distinct headers at distinct in-range positions yields distinct
names. -/
theorem map_getD_nodup {headers : List String} (hh : headers.Nodup)
    {js : List ℕ} (hjs : js.Nodup) (hlt : ∀ j ∈ js, j < headers.length) :
    (js.map (fun j => headers.getD j "")).Nodup := by
  refine List.Nodup.map_on ?_ hjs
  intro x hx y hy hEq
  have hxl := hlt x hx
  have hyl := hlt y hy
  rw [List.getD_eq_getElem _ _ hxl, List.getD_eq_getElem _ _ hyl] at hEq
  have h2 := List.nodup_iff_injective_get.1 hh
    (show headers.get ⟨x, hxl⟩ = headers.get ⟨y, hyl⟩ by simpa using hEq)
  simpa using h2

/-- The kept-rows time series of every well of a melted table is a sublist of
the table's full time column, provided the melted column names are distinct. -/
theorem wellTimes_melt_sublist {hours : List ℚ} {rows : List (List Cell)}
    (headers : List String) (js : List ℕ)
    (hlen : hours.length = rows.length)
    (hnames : (js.map (fun j => headers.getD j "")).Nodup) (w : String) :
    List.Sublist (wellTimes w (js.flatMap (fun j => (hours.zip rows).map
      (fun (t, row) => (t, headers.getD j "", row.getD j Cell.na))))) hours := by
  rw [wellTimes_flatMap]
  rw [show (fun j => wellTimes w ((hours.zip rows).map
      (fun (t, row) => (t, headers.getD j "", row.getD j Cell.na)))) =
    (fun j => if headers.getD j "" = w then hours else []) from
    funext (fun j => wellTimes_group w (headers.getD j "") j hlen)]
  exact flatMap_if_sublist (fun j => headers.getD j "") w hours js hnames

set_option maxHeartbeats 1000000 in
/-- The time column of a biotek Measurement Block: `_str2hours` applied to the
string rendering of each sub-table row's own time cell, in row order; each
output row carries the time of the very source row its value came from, and
(for distinct headers) every well's time series is non-decreasing whenever the
exact (pre-rounding) source hour values are. -/
theorem biotekBlock_times {sheet : Sheet} {spacer : Nat} {label : String}
    {i ind nextInd : Nat} {blk : Block}
    (h : biotekBlock sheet spacer label i ind nextInd = .ok blk) :
    ∃ tIdx hours,
      (readSub sheet ind ((nextInd : ℤ) - ind - 3)).headers.findIdx?
        (fun hdr => hdr = label) = some tIdx ∧
      ((readSub sheet ind ((nextInd : ℤ) - ind - 3)).rows.map
        (fun r => cellStr (r.getD tIdx Cell.na))).mapM str2hours = .ok hours ∧
      (∀ t w v, (t, w, v) ∈ blk.rows →
        ∃ row, (t, row) ∈ hours.zip (readSub sheet ind ((nextInd : ℤ) - ind - 3)).rows ∧
          str2hours (cellStr (row.getD tIdx Cell.na)) = .ok t ∧
          ∃ j, w = (readSub sheet ind ((nextInd : ℤ) - ind - 3)).headers.getD j "" ∧
            toNumeric (row.getD j Cell.na) = some v) ∧
      (∀ exacts,
        ((readSub sheet ind ((nextInd : ℤ) - ind - 3)).rows.map
          (fun r => cellStr (r.getD tIdx Cell.na))).mapM
            (fun src => str2hoursCore src.toList) = .ok exacts →
        List.Chain' (· ≤ ·) exacts →
        (readSub sheet ind ((nextInd : ℤ) - ind - 3)).headers.Nodup →
        ∀ w, List.Chain' (· ≤ ·) (wellTimes w blk.rows)) := by
  unfold biotekBlock at h
  cases hname : blockNameB sheet spacer i ind with
  | error e => rw [hname] at h; simp [bind, Except.bind] at h
  | ok name =>
    rw [hname] at h
    simp only [bind, Except.bind] at h
    cases hidx : (readSub sheet ind ((nextInd : ℤ) - ind - 3)).headers.findIdx?
        (fun hdr => hdr = label) with
    | none => rw [hidx] at h; simp at h
    | some tIdx =>
      rw [hidx] at h
      dsimp only at h
      cases hhours : ((readSub sheet ind ((nextInd : ℤ) - ind - 3)).rows.map
          (fun r => cellStr (r.getD tIdx Cell.na))).mapM str2hours with
      | error e => rw [hhours] at h; simp [bind, Except.bind] at h
      | ok hours =>
        rw [hhours] at h
        simp only [bind, Except.bind, pure] at h
        cases h
        refine ⟨tIdx, hours, rfl, hhours, ?_, ?_⟩
        · intro t w v hm
          have hkept := (List.mem_filter.1 hm).1
          obtain ⟨⟨t1, w1, v?⟩, hc, hfm⟩ := List.mem_filterMap.1 hkept
          dsimp only at hfm
          obtain ⟨⟨t2, w2, c⟩, hmelt, hco⟩ := List.mem_map.1 hc
          obtain ⟨j, hjm, hmj⟩ := List.mem_flatMap.1 hmelt
          obtain ⟨⟨t3, row⟩, hz, hpair⟩ := List.mem_map.1 hmj
          obtain ⟨v0, hv0, hv0e⟩ := Option.map_eq_some'.1 hfm
          have e3 : (t1, w1, v0) = (t, w, v) := hv0e
          have et1 : t1 = t := congrArg Prod.fst e3
          have ew1 : w1 = w := congrArg (fun p => p.2.1) e3
          have ev0 : v0 = v := congrArg (fun p => p.2.2) e3
          have et2 : t2 = t1 := congrArg Prod.fst hco
          have ew2 : w2 = w1 := congrArg (fun p => p.2.1) hco
          have ec : toNumeric c = v? := congrArg (fun p => p.2.2) hco
          have et3 : t3 = t2 := congrArg Prod.fst hpair
          have ew3 : (readSub sheet ind ((nextInd : ℤ) - ind - 3)).headers.getD j "" = w2 :=
            congrArg (fun p => p.2.1) hpair
          have ecc : row.getD j Cell.na = c := congrArg (fun p => p.2.2) hpair
          have htt : t3 = t := by rw [et3, et2, et1]
          refine ⟨row, htt ▸ hz, ?_, j, ?_, ?_⟩
          · have hz2 : (t3, cellStr (row.getD tIdx Cell.na)) ∈
                hours.zip ((readSub sheet ind ((nextInd : ℤ) - ind - 3)).rows.map
                  (fun r => cellStr (r.getD tIdx Cell.na))) := by
              rw [List.zip_map_right]
              exact List.mem_map.2 ⟨(t3, row), hz, rfl⟩
            have := mapM_ok_zip hhours hz2
            rwa [htt] at this
          · rw [ew3, ew2, ew1]
          · rw [ecc, ec, hv0, ev0]
        · intro exacts hexacts hch hnod w
          have hcomm := mapM_map_comm
            (show ((readSub sheet ind ((nextInd : ℤ) - ind - 3)).rows.map
              (fun r => cellStr (r.getD tIdx Cell.na))).mapM
                (fun src => (str2hoursCore src.toList).map round3) = .ok hours
              from hhours)
          obtain ⟨zs, hzs, hmapr⟩ := hcomm
          have hze : zs = exacts := by
            have := hzs.symm.trans hexacts
            exact Except.ok.inj this
          subst hze
          have hchh : List.Chain' (· ≤ ·) hours := by
            rw [hmapr, List.chain'_map]
            exact hch.imp (fun a b hab => round3_mono hab)
          have hlen : hours.length =
              (readSub sheet ind ((nextInd : ℤ) - ind - 3)).rows.length := by
            have := mapM_ok_length hhours
            rwa [List.length_map] at this
          have hjnd : ((List.range (readSub sheet ind
              ((nextInd : ℤ) - ind - 3)).headers.length).filter
              (fun j => !(decide ((readSub sheet ind
                ((nextInd : ℤ) - ind - 3)).headers.getD j "" = label) ||
                decide ((readSub sheet ind
                  ((nextInd : ℤ) - ind - 3)).headers.getD j "" = "Time [hr]")))).Nodup :=
            (List.nodup_range _).filter _
          have hjlt : ∀ j ∈ (List.range (readSub sheet ind
              ((nextInd : ℤ) - ind - 3)).headers.length).filter
              (fun j => !(decide ((readSub sheet ind
                ((nextInd : ℤ) - ind - 3)).headers.getD j "" = label) ||
                decide ((readSub sheet ind
                  ((nextInd : ℤ) - ind - 3)).headers.getD j "" = "Time [hr]"))),
              j < (readSub sheet ind ((nextInd : ℤ) - ind - 3)).headers.length :=
            fun j hj => List.mem_range.1 (List.mem_of_mem_filter hj)
          have hnames := map_getD_nodup hnod hjnd hjlt
          refine hchh.sublist ?_
          dsimp only
          refine List.Sublist.trans (wellTimes_filter_sublist w _ _) ?_
          refine List.Sublist.trans (wellTimes_filterMap_sublist w _) ?_
          rw [wellTimes_map_coerce w _]
          exact wellTimes_melt_sublist _ _ hlen hnames w

set_option maxHeartbeats 4000000 in
/-- The time column of a spectramax Measurement Block: `_str2hours` applied to
the string rendering of each (dropna-surviving) sub-table row's own time cell,
with the same per-row tie and per-well monotonicity as the biotek variant. -/
theorem spectramaxBlock_times {sheet : Sheet} {i ind nextInd : Nat} {blk : Block}
    (h : spectramaxBlock sheet i ind nextInd = .ok blk) :
    ∃ tIdx hours,
      (smaxHeaders1 (readSub sheet ind ((nextInd : ℤ) - ind - 3))).findIdx?
        (fun hdr => hdr = "Time") = some tIdx ∧
      ((smaxRows2 (readSub sheet ind ((nextInd : ℤ) - ind - 3))).map
        (fun r => cellStr (r.getD tIdx Cell.na))).mapM str2hours = .ok hours ∧
      (∀ t w v, (t, w, v) ∈ blk.rows →
        ∃ row, (t, row) ∈ hours.zip
            (smaxRows2 (readSub sheet ind ((nextInd : ℤ) - ind - 3))) ∧
          str2hours (cellStr (row.getD tIdx Cell.na)) = .ok t ∧
          ∃ j, w = (smaxHeaders1 (readSub sheet ind ((nextInd : ℤ) - ind - 3))).getD j "" ∧
            toNumeric (row.getD j Cell.na) = some v) ∧
      (∀ exacts,
        ((smaxRows2 (readSub sheet ind ((nextInd : ℤ) - ind - 3))).map
          (fun r => cellStr (r.getD tIdx Cell.na))).mapM
            (fun src => str2hoursCore src.toList) = .ok exacts →
        List.Chain' (· ≤ ·) exacts →
        (readSub sheet ind ((nextInd : ℤ) - ind - 3)).headers.Nodup →
        ∀ w, List.Chain' (· ≤ ·) (wellTimes w blk.rows)) := by
  unfold spectramaxBlock at h
  cases hname : blockNameS sheet i ind with
  | error e => rw [hname] at h; simp [bind, Except.bind] at h
  | ok name =>
    rw [hname] at h
    simp only [bind, Except.bind] at h
    cases hidx : (smaxHeaders1 (readSub sheet ind ((nextInd : ℤ) - ind - 3))).findIdx?
        (fun hdr => hdr = "Time") with
    | none => rw [hidx] at h; simp at h
    | some tIdx =>
      rw [hidx] at h
      dsimp only at h
      cases htemp : (smaxHeaders1 (readSub sheet ind
          ((nextInd : ℤ) - ind - 3))).contains "Temperature(¡C)" with
      | false => rw [htemp] at h; simp at h
      | true =>
        rw [htemp] at h
        simp only [Bool.not_true, Bool.false_eq_true, if_false] at h
        cases hhours : ((smaxRows2 (readSub sheet ind ((nextInd : ℤ) - ind - 3))).map
            (fun r => cellStr (r.getD tIdx Cell.na))).mapM str2hours with
        | error e => rw [hhours] at h; simp [bind, Except.bind] at h
        | ok hours =>
          rw [hhours] at h
          simp only [bind, Except.bind, pure] at h
          cases h
          refine ⟨tIdx, hours, rfl, hhours, ?_, ?_⟩
          · intro t w v hm
            obtain ⟨⟨t1, w1, v?⟩, hc, hfm⟩ := List.mem_filterMap.1 hm
            dsimp only at hfm
            obtain ⟨⟨t2, w2, c⟩, hmelt, hco⟩ := List.mem_map.1 hc
            obtain ⟨j, hjm, hmj⟩ := List.mem_flatMap.1 hmelt
            obtain ⟨⟨t3, row⟩, hz, hpair⟩ := List.mem_map.1 hmj
            obtain ⟨v0, hv0, hv0e⟩ := Option.map_eq_some'.1 hfm
            have e3 : (t1, w1, v0) = (t, w, v) := hv0e
            have et1 : t1 = t := congrArg Prod.fst e3
            have ew1 : w1 = w := congrArg (fun p => p.2.1) e3
            have ev0 : v0 = v := congrArg (fun p => p.2.2) e3
            have et2 : t2 = t1 := congrArg Prod.fst hco
            have ew2 : w2 = w1 := congrArg (fun p => p.2.1) hco
            have ec : toNumeric c = v? := congrArg (fun p => p.2.2) hco
            have et3 : t3 = t2 := congrArg Prod.fst hpair
            have ew3 : (smaxHeaders1 (readSub sheet ind
                ((nextInd : ℤ) - ind - 3))).getD j "" = w2 :=
              congrArg (fun p => p.2.1) hpair
            have ecc : row.getD j Cell.na = c := congrArg (fun p => p.2.2) hpair
            have htt : t3 = t := by rw [et3, et2, et1]
            refine ⟨row, htt ▸ hz, ?_, j, ?_, ?_⟩
            · have hz2 : (t3, cellStr (row.getD tIdx Cell.na)) ∈
                  hours.zip ((smaxRows2 (readSub sheet ind
                    ((nextInd : ℤ) - ind - 3))).map
                      (fun r => cellStr (r.getD tIdx Cell.na))) := by
                rw [List.zip_map_right]
                exact List.mem_map.2 ⟨(t3, row), hz, rfl⟩
              have := mapM_ok_zip hhours hz2
              rwa [htt] at this
            · rw [ew3, ew2, ew1]
            · rw [ecc, ec, hv0, ev0]
          · intro exacts hexacts hch hnod w
            have hcomm := mapM_map_comm
              (show ((smaxRows2 (readSub sheet ind ((nextInd : ℤ) - ind - 3))).map
                (fun r => cellStr (r.getD tIdx Cell.na))).mapM
                  (fun src => (str2hoursCore src.toList).map round3) = .ok hours
                from hhours)
            obtain ⟨zs, hzs, hmapr⟩ := hcomm
            have hze : zs = exacts := Except.ok.inj (hzs.symm.trans hexacts)
            subst hze
            have hchh : List.Chain' (· ≤ ·) hours := by
              rw [hmapr, List.chain'_map]
              exact hch.imp (fun a b hab => round3_mono hab)
            have hlen : hours.length =
                (smaxRows2 (readSub sheet ind ((nextInd : ℤ) - ind - 3))).length := by
              have := mapM_ok_length hhours
              rwa [List.length_map] at this
            have hknd : (keepColIdx (readSub sheet ind ((nextInd : ℤ) - ind - 3)).headers
                (dropnaRows (readSub sheet ind ((nextInd : ℤ) - ind - 3)).rows)).Nodup :=
              (List.nodup_range _).filter _
            have hklt : ∀ j ∈ keepColIdx (readSub sheet ind
                ((nextInd : ℤ) - ind - 3)).headers
                (dropnaRows (readSub sheet ind ((nextInd : ℤ) - ind - 3)).rows),
                j < (readSub sheet ind ((nextInd : ℤ) - ind - 3)).headers.length :=
              fun j hj => List.mem_range.1 (List.mem_of_mem_filter hj)
            have hh1nd : (smaxHeaders1 (readSub sheet ind
                ((nextInd : ℤ) - ind - 3))).Nodup :=
              map_getD_nodup hnod hknd hklt
            have hjnd : ((List.range (smaxHeaders1 (readSub sheet ind
                ((nextInd : ℤ) - ind - 3))).length).filter
                (fun j => !(["Time", "Temperature(¡C)", "Time [hr]"].contains
                  ((smaxHeaders1 (readSub sheet ind
                    ((nextInd : ℤ) - ind - 3))).getD j "")))).Nodup :=
              (List.nodup_range _).filter _
            have hjlt : ∀ j ∈ (List.range (smaxHeaders1 (readSub sheet ind
                ((nextInd : ℤ) - ind - 3))).length).filter
                (fun j => !(["Time", "Temperature(¡C)", "Time [hr]"].contains
                  ((smaxHeaders1 (readSub sheet ind
                    ((nextInd : ℤ) - ind - 3))).getD j ""))),
                j < (smaxHeaders1 (readSub sheet ind
                  ((nextInd : ℤ) - ind - 3))).length :=
              fun j hj => List.mem_range.1 (List.mem_of_mem_filter hj)
            have hnames := map_getD_nodup hh1nd hjnd hjlt
            refine hchh.sublist ?_
            dsimp only
            refine List.Sublist.trans (wellTimes_filterMap_sublist w _) ?_
            rw [wellTimes_map_coerce w _]
            exact wellTimes_melt_sublist _ _ hlen hnames w

set_option maxHeartbeats 1000000 in
/-- Every `Time [hr]` entry of a tecan measurement table is
`(Time [s] / 3600).round()` of the same melted row's seconds cell. -/
theorem tecanBlock_time_eq {sheet : Sheet} {ind nextInd : Nat} {blk : TBlock}
    (h : tecanBlock sheet ind nextInd = .ok blk) :
    ∀ r ∈ blk.rows, cellDivRound3600 r.timeS = .ok r.timeHr := by
  unfold tecanBlock at h
  cases hname : ilocStr (sheet.drop 1) ((ind : ℤ) - 1) 0 with
  | error e => rw [hname] at h; simp [bind, Except.bind] at h
  | ok name =>
    rw [hname] at h
    simp only [bind, Except.bind] at h
    set st := readSub sheet (ind + 1) ((nextInd : ℤ) - ind - 2) with hst
    set rows1 := st.rows.filter (fun row => !(row.all (fun c => decide (c = Cell.na))))
      with hrows1
    cases hsidx : st.headers.findIdx? (fun hdr => hdr = "Time [s]") with
    | none => rw [hsidx] at h; simp at h
    | some sIdx =>
      rw [hsidx] at h
      dsimp only at h
      cases hcidx : st.headers.findIdx? (fun hdr => hdr = "Cycle Nr.") with
      | none => rw [hcidx] at h; simp at h
      | some cIdx =>
        rw [hcidx] at h
        cases htidx : st.headers.findIdx? (fun hdr => hdr = "Temp. [°C]") with
        | none => rw [htidx] at h; simp at h
        | some tempIdx =>
          rw [htidx] at h
          dsimp only at h
          cases hhours : rows1.mapM (fun r => cellDivRound3600 (r.getD sIdx Cell.na)) with
          | error e => rw [hhours] at h; simp [bind, Except.bind] at h
          | ok hours =>
            rw [hhours] at h
            simp only [bind, Except.bind, pure] at h
            cases h
            intro r hm
            obtain ⟨j, _, hmj⟩ := List.mem_flatMap.1 hm
            obtain ⟨⟨t, row⟩, hz, hpair⟩ := List.mem_map.1 hmj
            have hfr := mapM_ok_zip hhours hz
            cases hpair
            exact hfr

/-- The whole-hour rounding of the tecan time column is monotone in the
source seconds: any two rows of a block with numeric seconds cells in order
have their `Time [hr]` values in order. -/
theorem tecanBlock_time_mono {sheet : Sheet} {ind nextInd : Nat} {blk : TBlock}
    (h : tecanBlock sheet ind nextInd = .ok blk) :
    ∀ r1 ∈ blk.rows, ∀ r2 ∈ blk.rows, ∀ q1 q2 t1 t2,
      r1.timeS = Cell.num q1 → r2.timeS = Cell.num q2 → q1 ≤ q2 →
      r1.timeHr = some t1 → r2.timeHr = some t2 → t1 ≤ t2 := by
  intro r1 h1 r2 h2 q1 q2 t1 t2 hs1 hs2 hle ht1 ht2
  have e1 := tecanBlock_time_eq h r1 h1
  have e2 := tecanBlock_time_eq h r2 h2
  rw [hs1] at e1
  rw [hs2] at e2
  simp only [cellDivRound3600] at e1 e2
  have he1 := Except.ok.inj e1
  have he2 := Except.ok.inj e2
  rw [ht1] at he1
  rw [ht2] at he2
  have hv1 : ((roundHalfEven (q1 / 3600) : ℤ) : ℚ) = t1 := Option.some.inj he1
  have hv2 : ((roundHalfEven (q2 / 3600) : ℤ) : ℚ) = t2 := Option.some.inj he2
  rw [← hv1, ← hv2]
  have := roundHalfEven_mono (show q1 / 3600 ≤ q2 / 3600 by linarith)
  exact_mod_cast this

/-- Every block of a successful biotek wrangle is the per-measurement loop
body at one of the sentinel-delimited boundary pairs. -/
theorem biotekWrangle_blocks {sheet : Sheet} {nb : Bool} {blocks : List Block}
    (h : biotekWrangle sheet nb = .ok blocks) :
    ∀ blk ∈ blocks, ∃ i ind nextInd,
      (ind, nextInd) ∈ (sentinelRows sheet (if nb then 1 else 0)
          [if nb then "Time" else "Kinetic read"]).zip
        ((sentinelRows sheet (if nb then 1 else 0)
          [if nb then "Time" else "Kinetic read"]).drop 1 ++ [sheet.length + 3]) ∧
      biotekBlock sheet (if nb then 2 else 1)
        (if nb then "Time" else "Kinetic read") i ind nextInd = .ok blk := by
  intro blk hblk
  simp only [biotekWrangle] at h
  by_cases hg : frameCols sheet ≤ (if nb then 1 else 0)
  · rw [if_pos hg] at h
    exact absurd h (by simp)
  · rw [if_neg hg] at h
    obtain ⟨⟨i, ind, nextInd⟩, hmem, hb⟩ := mapM_ok_mem h hblk
    exact ⟨i, ind, nextInd, snd_mem_of_mem_enum hmem, hb⟩

/-- Every block of a successful spectramax wrangle is the per-measurement loop
body at one of the sentinel-delimited boundary pairs. -/
theorem spectramaxWrangle_blocks {sheet : Sheet} {blocks : List Block}
    (h : spectramaxWrangle sheet = .ok blocks) :
    ∀ blk ∈ blocks, ∃ i ind nextInd,
      (ind, nextInd) ∈ (sentinelRows sheet 0 ["Time", "~End"]).zip
        ((sentinelRows sheet 0 ["Time", "~End"]).drop 1) ∧
      spectramaxBlock sheet i ind nextInd = .ok blk := by
  intro blk hblk
  simp only [spectramaxWrangle] at h
  split at h
  · exact absurd h (by simp)
  · obtain ⟨⟨i, ind, nextInd⟩, hmem, hb⟩ := mapM_ok_mem h hblk
    exact ⟨i, ind, nextInd, snd_mem_of_mem_enum hmem, hb⟩

theorem tecanWrangle_blocks_inv {sheet : Sheet} {blocks : List TBlock}
    (h : tecanWrangle sheet false = .ok (Sum.inr blocks)) :
    ((sentinelRows (sheet.drop 1) 0 ["Cycle Nr.", "End Time"]).zip
      ((sentinelRows (sheet.drop 1) 0 ["Cycle Nr.", "End Time"]).drop 1)).mapM
        (fun p => tecanBlock sheet p.1 p.2) = .ok blocks := by
  simp only [tecanWrangle] at h
  split at h
  · exact absurd h (by simp)
  · cases hb : ((sentinelRows (sheet.drop 1) 0 ["Cycle Nr.", "End Time"]).zip
        ((sentinelRows (sheet.drop 1) 0 ["Cycle Nr.", "End Time"]).drop 1)).mapM
          (fun x => match x with | (ind, nextInd) => tecanBlock sheet ind nextInd) with
    | error e =>
        rw [hb] at h
        simp [bind, Except.bind] at h
    | ok bs =>
        rw [hb] at h
        simp only [bind, Except.bind, Bool.false_eq_true, if_false, pure] at h
        cases h
        rfl

/-- The tecan row tie and monotonicity, lifted to `wrangle_growthcurves`. -/
theorem tecanWrangle_rows {sheet : Sheet} {blocks : List TBlock}
    (h : tecanWrangle sheet false = .ok (Sum.inr blocks)) :
    ∀ blk ∈ blocks,
      (∀ r ∈ blk.rows, cellDivRound3600 r.timeS = .ok r.timeHr) ∧
      (∀ r1 ∈ blk.rows, ∀ r2 ∈ blk.rows, ∀ q1 q2 t1 t2,
        r1.timeS = Cell.num q1 → r2.timeS = Cell.num q2 → q1 ≤ q2 →
        r1.timeHr = some t1 → r2.timeHr = some t2 → t1 ≤ t2) := by
  intro blk hblk
  obtain ⟨⟨ind, nextInd⟩, _, hb⟩ := mapM_ok_mem (tecanWrangle_blocks_inv h) hblk
  exact ⟨tecanBlock_time_eq hb, tecanBlock_time_mono hb⟩


/-- C2 counterexample: the tecan parser's `Time [hr]` is NOT the Timestamp
Normalizer's output rounded to 3 decimals. At `Time [s] = 1800` (timestamp
`0:30:00`) tecan emits `0` whole hours while `_str2hours "0:30:00"` is `0.5`. -/
theorem C2_counterexample_tecan_time :
    tecanWrangle tecanC2Sheet false = .ok (Sum.inr
      [{ name := "OD600",
         rows := [{ timeHr := some 0, cycle := Cell.num 1, timeS := Cell.num 1800,
                    temp := Cell.num 25, well := "A1", value := Cell.num (1/10) }] }]) ∧
    str2hours "0:30:00" = .ok (1/2) ∧ some (0 : ℚ) ≠ some (1/2 : ℚ) := by
  refine ⟨by decide, by decide, by decide⟩

/-- C2 (amended): every biotek and spectramax Measurement Block carries its
`Time [hr]` column as `_str2hours` (exact hours rounded half-even to 3
decimals) applied to the string rendering of each sub-table row's own time
cell; each output row keeps the time of the very source row its value came
from, and — the normalizer being monotone — for sub-tables with distinct
column headers every well's time series is non-decreasing whenever the exact
source hour values are. The tecan parser instead sets
`Time [hr] = round(Time [s] / 3600)` to the nearest whole hour on the same
row — likewise monotone in the source seconds, but not the Timestamp
Normalizer's 3-decimal output. -/
theorem C2_time_normalization :
    (∀ s v, str2hours s = .ok v →
      ∃ e, str2hoursCore s.toList = .ok e ∧ v = round3 e) ∧
    (∀ a b : ℚ, a ≤ b → round3 a ≤ round3 b) ∧
    (∀ sheet nb blocks, biotekWrangle sheet nb = .ok blocks →
      ∀ blk ∈ blocks, ∃ i ind nextInd,
        (ind, nextInd) ∈ (sentinelRows sheet (if nb then 1 else 0)
            [if nb then "Time" else "Kinetic read"]).zip
          ((sentinelRows sheet (if nb then 1 else 0)
            [if nb then "Time" else "Kinetic read"]).drop 1 ++ [sheet.length + 3]) ∧
        biotekBlock sheet (if nb then 2 else 1)
          (if nb then "Time" else "Kinetic read") i ind nextInd = .ok blk) ∧
    (∀ sheet spacer label i ind nextInd blk,
      biotekBlock sheet spacer label i ind nextInd = .ok blk →
      ∃ tIdx hours,
        (readSub sheet ind ((nextInd : ℤ) - ind - 3)).headers.findIdx?
          (fun hdr => hdr = label) = some tIdx ∧
        ((readSub sheet ind ((nextInd : ℤ) - ind - 3)).rows.map
          (fun r => cellStr (r.getD tIdx Cell.na))).mapM str2hours = .ok hours ∧
        (∀ t w v, (t, w, v) ∈ blk.rows →
          ∃ row, (t, row) ∈ hours.zip (readSub sheet ind ((nextInd : ℤ) - ind - 3)).rows ∧
            str2hours (cellStr (row.getD tIdx Cell.na)) = .ok t ∧
            ∃ j, w = (readSub sheet ind ((nextInd : ℤ) - ind - 3)).headers.getD j "" ∧
              toNumeric (row.getD j Cell.na) = some v) ∧
        (∀ exacts,
          ((readSub sheet ind ((nextInd : ℤ) - ind - 3)).rows.map
            (fun r => cellStr (r.getD tIdx Cell.na))).mapM
              (fun src => str2hoursCore src.toList) = .ok exacts →
          List.Chain' (· ≤ ·) exacts →
          (readSub sheet ind ((nextInd : ℤ) - ind - 3)).headers.Nodup →
          ∀ w, List.Chain' (· ≤ ·) (wellTimes w blk.rows))) ∧
    (∀ sheet blocks, spectramaxWrangle sheet = .ok blocks →
      ∀ blk ∈ blocks, ∃ i ind nextInd,
        (ind, nextInd) ∈ (sentinelRows sheet 0 ["Time", "~End"]).zip
          ((sentinelRows sheet 0 ["Time", "~End"]).drop 1) ∧
        spectramaxBlock sheet i ind nextInd = .ok blk) ∧
    (∀ sheet i ind nextInd blk, spectramaxBlock sheet i ind nextInd = .ok blk →
      ∃ tIdx hours,
        (smaxHeaders1 (readSub sheet ind ((nextInd : ℤ) - ind - 3))).findIdx?
          (fun hdr => hdr = "Time") = some tIdx ∧
        ((smaxRows2 (readSub sheet ind ((nextInd : ℤ) - ind - 3))).map
          (fun r => cellStr (r.getD tIdx Cell.na))).mapM str2hours = .ok hours ∧
        (∀ t w v, (t, w, v) ∈ blk.rows →
          ∃ row, (t, row) ∈ hours.zip
              (smaxRows2 (readSub sheet ind ((nextInd : ℤ) - ind - 3))) ∧
            str2hours (cellStr (row.getD tIdx Cell.na)) = .ok t ∧
            ∃ j, w = (smaxHeaders1 (readSub sheet ind
              ((nextInd : ℤ) - ind - 3))).getD j "" ∧
              toNumeric (row.getD j Cell.na) = some v) ∧
        (∀ exacts,
          ((smaxRows2 (readSub sheet ind ((nextInd : ℤ) - ind - 3))).map
            (fun r => cellStr (r.getD tIdx Cell.na))).mapM
              (fun src => str2hoursCore src.toList) = .ok exacts →
          List.Chain' (· ≤ ·) exacts →
          (readSub sheet ind ((nextInd : ℤ) - ind - 3)).headers.Nodup →
          ∀ w, List.Chain' (· ≤ ·) (wellTimes w blk.rows))) ∧
    (∀ sheet blocks, tecanWrangle sheet false = .ok (Sum.inr blocks) →
      ∀ blk ∈ blocks,
        (∀ r ∈ blk.rows, cellDivRound3600 r.timeS = .ok r.timeHr) ∧
        (∀ r1 ∈ blk.rows, ∀ r2 ∈ blk.rows, ∀ q1 q2 t1 t2,
          r1.timeS = Cell.num q1 → r2.timeS = Cell.num q2 → q1 ≤ q2 →
          r1.timeHr = some t1 → r2.timeHr = some t2 → t1 ≤ t2)) ∧
    (∀ c t?, cellDivRound3600 c = .ok t? → ∀ t ∈ t?,
      ∃ q, c = Cell.num q ∧ t = ((roundHalfEven (q / 3600) : ℤ) : ℚ)) := by
  refine ⟨?_, ?_, ?_, ?_, ?_, ?_, ?_, ?_⟩
  · intro s v h
    unfold str2hours str2hoursL at h
    cases hc : str2hoursCore s.toList with
    | error e => rw [hc] at h; simp [Except.map] at h
    | ok e =>
        rw [hc] at h
        simp only [Except.map] at h
        cases h
        exact ⟨e, rfl, rfl⟩
  · intro a b hab
    exact round3_mono hab
  · intro sheet nb blocks h
    exact biotekWrangle_blocks h
  · intro sheet spacer label i ind nextInd blk h
    exact biotekBlock_times h
  · intro sheet blocks h
    exact spectramaxWrangle_blocks h
  · intro sheet i ind nextInd blk h
    exact spectramaxBlock_times h
  · intro sheet blocks h
    exact tecanWrangle_rows h
  · intro c t? h t ht
    cases c with
    | na => simp [cellDivRound3600] at h; cases h; simp at ht
    | str v => simp [cellDivRound3600] at h
    | num q =>
        simp only [cellDivRound3600] at h
        cases h
        simp only [Option.mem_def, Option.some.injEq] at ht
        exact ⟨q, rfl, ht.symm⟩

theorem C2_time_normalization_witness :
    (∃ e, str2hoursCore "0:30:00".toList = .ok e ∧ (1/2 : ℚ) = round3 e) ∧
    round3 (0 : ℚ) ≤ round3 1 ∧
    (∃ i ind nextInd,
      (ind, nextInd) ∈ (sentinelRows biotekNewSheet 1 ["Time"]).zip
        ((sentinelRows biotekNewSheet 1 ["Time"]).drop 1 ++
          [biotekNewSheet.length + 3]) ∧
      biotekBlock biotekNewSheet 2 "Time" i ind nextInd =
        .ok { name := "OD600:600", rows := [(1/2, "A1", 1/10), (1, "A1", 1/5)] }) ∧
    (∃ tIdx hours,
      (readSub biotekNewSheet 2 (((8 : ℕ) : ℤ) - 2 - 3)).headers.findIdx?
        (fun hdr => hdr = "Time") = some tIdx ∧
      ((readSub biotekNewSheet 2 (((8 : ℕ) : ℤ) - 2 - 3)).rows.map
        (fun r => cellStr (r.getD tIdx Cell.na))).mapM str2hours = .ok hours ∧
      (∀ t w v, (t, w, v) ∈
          ({ name := "OD600:600",
             rows := [(1/2, "A1", 1/10), (1, "A1", 1/5)] } : Block).rows →
        ∃ row, (t, row) ∈ hours.zip
            (readSub biotekNewSheet 2 (((8 : ℕ) : ℤ) - 2 - 3)).rows ∧
          str2hours (cellStr (row.getD tIdx Cell.na)) = .ok t ∧
          ∃ j, w = (readSub biotekNewSheet 2 (((8 : ℕ) : ℤ) - 2 - 3)).headers.getD j "" ∧
            toNumeric (row.getD j Cell.na) = some v) ∧
      (∀ exacts,
        ((readSub biotekNewSheet 2 (((8 : ℕ) : ℤ) - 2 - 3)).rows.map
          (fun r => cellStr (r.getD tIdx Cell.na))).mapM
            (fun src => str2hoursCore src.toList) = .ok exacts →
        List.Chain' (· ≤ ·) exacts →
        (readSub biotekNewSheet 2 (((8 : ℕ) : ℤ) - 2 - 3)).headers.Nodup →
        ∀ w, List.Chain' (· ≤ ·) (wellTimes w
          ({ name := "OD600:600",
             rows := [(1/2, "A1", 1/10), (1, "A1", 1/5)] } : Block).rows))) ∧
    (∃ i ind nextInd,
      (ind, nextInd) ∈ (sentinelRows spectramaxSheet 0 ["Time", "~End"]).zip
        ((sentinelRows spectramaxSheet 0 ["Time", "~End"]).drop 1) ∧
      spectramaxBlock spectramaxSheet i ind nextInd =
        .ok { name := "Lum570", rows := [(1, "A1", 2)] }) ∧
    ((∀ r ∈ (TBlock.mk "OD600" [TecanRow.mk (some 0) (Cell.num 1) (Cell.num 1800)
        (Cell.num 25) "A1" (Cell.num (1/10))]).rows,
        cellDivRound3600 r.timeS = .ok r.timeHr) ∧
     (∀ r1 ∈ (TBlock.mk "OD600" [TecanRow.mk (some 0) (Cell.num 1) (Cell.num 1800)
        (Cell.num 25) "A1" (Cell.num (1/10))]).rows,
      ∀ r2 ∈ (TBlock.mk "OD600" [TecanRow.mk (some 0) (Cell.num 1) (Cell.num 1800)
        (Cell.num 25) "A1" (Cell.num (1/10))]).rows,
      ∀ q1 q2 t1 t2,
        r1.timeS = Cell.num q1 → r2.timeS = Cell.num q2 → q1 ≤ q2 →
        r1.timeHr = some t1 → r2.timeHr = some t2 → t1 ≤ t2)) ∧
    (∃ q, Cell.num (1800 : ℚ) = Cell.num q ∧
      (0 : ℚ) = ((roundHalfEven (q / 3600) : ℤ) : ℚ)) :=
  ⟨C2_time_normalization.1 "0:30:00" (1/2) (by decide),
   C2_time_normalization.2.1 0 1 (by norm_num),
   C2_time_normalization.2.2.1 biotekNewSheet true
     [{ name := "OD600:600", rows := [(1/2, "A1", 1/10), (1, "A1", 1/5)] }]
     (by decide)
     { name := "OD600:600", rows := [(1/2, "A1", 1/10), (1, "A1", 1/5)] }
     (by simp),
   C2_time_normalization.2.2.2.1 biotekNewSheet 2 "Time" 0 2 8
     { name := "OD600:600", rows := [(1/2, "A1", 1/10), (1, "A1", 1/5)] }
     (by decide),
   C2_time_normalization.2.2.2.2.1 spectramaxSheet
     [{ name := "Lum570", rows := [(1, "A1", 2)] }]
     (by decide)
     { name := "Lum570", rows := [(1, "A1", 2)] }
     (by simp),
   C2_time_normalization.2.2.2.2.2.2.1 tecanC2Sheet
     [{ name := "OD600",
        rows := [{ timeHr := some 0, cycle := Cell.num 1, timeS := Cell.num 1800,
                   temp := Cell.num 25, well := "A1", value := Cell.num (1/10) }] }]
     (by decide)
     { name := "OD600",
       rows := [{ timeHr := some 0, cycle := Cell.num 1, timeS := Cell.num 1800,
                  temp := Cell.num 25, well := "A1", value := Cell.num (1/10) }] }
     (by simp),
   C2_time_normalization.2.2.2.2.2.2.2 (Cell.num 1800) (some 0) (by decide) 0 rfl⟩

/-- C7 counterexample: with the new-biotek layout and a boundary at row 1,
the name row index `1 - 2 = -1` is negative, yet the block is NOT given the
synthetic name `value0` — it is named from the wrapped-around last sheet row. -/
theorem C7_counterexample_wrapped_name :
    sentinelRows biotekWrapSheet 1 ["Time"] = [1] ∧
    ((1 : ℤ) - 2 < 0) ∧
    biotekWrangle biotekWrapSheet true =
      .ok [{ name := "LASTROW",
             rows := [(0, "A1", 1), (17/1000, "A1", 2)] }] ∧
    "LASTROW" ≠ "value0" := by
  exact ⟨by decide, by decide, by decide, by decide⟩

/-- C7 (amended): the synthetic name `value<i>` is used exactly when the
boundary row index is 0 — the guard tests `index - 1 ≥ 0`, not
`index - offset ≥ 0`. For a boundary at index ≥ 1 the name is read from
`index - offset` with Python wrap-around indexing; with the new-biotek
offset 2 a boundary at index 1 therefore reads the LAST sheet row. The
spectramax variant (offset 1, columns 5 and 15 concatenated) never wraps. -/
theorem C7_name_row_selection (sheet : Sheet) (spacer i ind : Nat) :
    (blockNameB sheet spacer i 0 = .ok ("value" ++ toString i)) ∧
    (1 ≤ ind → blockNameB sheet spacer i ind = ilocStr sheet ((ind : ℤ) - spacer) 0) ∧
    (blockNameS sheet i 0 = .ok ("value" ++ toString i)) ∧
    (1 ≤ ind → blockNameS sheet i ind =
      (ilocStr sheet ((ind : ℤ) - 1) 5).bind (fun a =>
        (ilocStr sheet ((ind : ℤ) - 1) 15).map (fun b => a ++ b))) ∧
    (∀ row, sheet.getLast? = some row →
      ilocStr sheet (-1) 0 = .ok (cellStr (row.getD 0 Cell.na))) := by
  refine ⟨?_, ?_, ?_, ?_, ?_⟩
  · simp [blockNameB]
  · intro h
    simp [blockNameB, h]
  · simp [blockNameS]
  · intro h
    simp only [blockNameS, if_pos h]
    cases ha : ilocStr sheet ((ind : ℤ) - 1) 5 with
    | error e => simp [bind, Except.bind, Except.map]
    | ok a =>
        cases hb : ilocStr sheet ((ind : ℤ) - 1) 15 with
        | error e => simp [bind, Except.bind, Except.map, ha, hb]
        | ok b => simp [bind, Except.bind, Except.map, ha, hb, pure]
  · intro row hrow
    have hne : sheet ≠ [] := by
      intro hnil
      rw [hnil] at hrow
      simp at hrow
    have hlen : 1 ≤ sheet.length := by
      cases sheet with
      | nil => exact absurd rfl hne
      | cons a l => simp
    unfold ilocStr ilocRow
    have h1 : ¬(0 ≤ (-1 : ℤ)) := by norm_num
    rw [if_neg h1]
    have h2 : 0 ≤ (sheet.length : ℤ) + (-1) := by
      omega
    rw [if_pos h2]
    have h3 : ((sheet.length : ℤ) + (-1)).toNat = sheet.length - 1 := by omega
    rw [h3]
    have h4 : sheet.get? (sheet.length - 1) = some row := by
      rw [List.get?_eq_getElem?, ← List.getLast?_eq_getElem?]
      exact hrow
    rw [h4]
    rfl

theorem C7_name_row_selection_witness :
    blockNameB biotekWrapSheet 2 0 0 = .ok ("value" ++ toString 0) ∧
    blockNameB biotekWrapSheet 2 0 1 = ilocStr biotekWrapSheet ((1 : ℤ) - 2) 0 ∧
    ilocStr biotekWrapSheet (-1) 0 =
      .ok (cellStr (([Cell.str "LASTROW", Cell.str "0:01:00",
        Cell.num 2] : List Cell).getD 0 Cell.na)) :=
  ⟨(C7_name_row_selection biotekWrapSheet 2 0 1).1,
   (C7_name_row_selection biotekWrapSheet 2 0 1).2.1 (by decide),
   (C7_name_row_selection biotekWrapSheet 2 0 1).2.2.2.2
     [Cell.str "LASTROW", Cell.str "0:01:00", Cell.num 2] (by decide)⟩

/-! ## plate_condmap (biotek.py 6–108, tecan.py 4–105, spectramax.py 12–113)

The three `plate_condmap` variants are identical except that only the biotek
variant drops value-less melted rows before pivoting (biotek.py line 44), and
the index is named `Well` (biotek/spectramax) vs `well` (tecan) — the index
name itself is not part of this model. The template is the spreadsheet as read
by `pd.read_excel(filename, dtype=str)`: all cells are strings or NaN. -/

theorem setCol_wells (df : LegendDF) (nm : String) (vals : List Val) :
    (setCol df nm vals).wells = df.wells := by
  unfold setCol
  split <;> rfl

theorem dropCol_wells {df df' : LegendDF} {nm : String}
    (h : dropCol df nm = .ok df') : df'.wells = df.wells := by
  unfold dropCol at h
  split at h
  · cases h; rfl
  · cases h

theorem foldl_setCol_wells (l : List (String × List Val)) (df : LegendDF) :
    (l.foldl (fun d nc => setCol d nc.1 nc.2) df).wells = df.wells := by
  induction l generalizing df with
  | nil => rfl
  | cons a l ih => rw [List.foldl_cons, ih, setCol_wells]

theorem condVerboseBranch_wells {df df' : LegendDF}
    {conds0 conds1 : List (Option String)}
    (h : condVerboseBranch df conds0 conds1 = .ok df') : df'.wells = df.wells := by
  simp only [condVerboseBranch] at h
  split at h
  · exact Except.noConfusion h
  · split at h
    · exact Except.noConfusion h
    · split at h
      · exact Except.noConfusion h
      · obtain ⟨cols, hc, h⟩ := except_bind_ok h
        obtain ⟨dfa, hd1, h⟩ := except_bind_ok h
        obtain ⟨dfb, hd2, h⟩ := except_bind_ok h
        cases h
        rw [dropCol_wells hd2, dropCol_wells hd1, foldl_setCol_wells]

theorem condmapMediumConc_wells {df df' : LegendDF}
    {media : List (Option String × Option String)}
    (h : condmapMediumConc df media = .ok df') : df'.wells = df.wells := by
  unfold condmapMediumConc at h
  split at h
  · cases hm : media.mapM (fun p => valFloat p.2) with
    | error e => rw [hm] at h; exact Except.noConfusion h
    | ok concs =>
        rw [hm] at h
        simp only [Except.map] at h
        cases h
        rw [setCol_wells]
  · simp only [pure, Except.pure] at h
    cases h
    rfl

theorem condmapCondPart_wells {verbose : Bool} {df df' : LegendDF}
    {conds : List (Option String × Option String)}
    (h : condmapCondPart verbose df conds = .ok df') : df'.wells = df.wells := by
  unfold condmapCondPart at h
  split at h
  · split at h
    · rw [condVerboseBranch_wells h, setCol_wells]
    · simp only [pure, Except.pure] at h
      cases h
      rw [setCol_wells]
  · simp only [pure, Except.pure] at h
    cases h
    rfl

theorem condmapSplit_wells {verbose : Bool} {delim : String} {df df' : LegendDF}
    (h : condmapSplit verbose delim df = .ok df') : df'.wells = df.wells := by
  simp only [condmapSplit] at h
  obtain ⟨mediumCol, hm, h⟩ := except_bind_ok h
  obtain ⟨df2, hif1, h⟩ := except_bind_ok h
  obtain ⟨df3, hd1, h⟩ := except_bind_ok h
  obtain ⟨condCol, hcc, h⟩ := except_bind_ok h
  obtain ⟨df6, hif2, h⟩ := except_bind_ok h
  obtain ⟨df7, hd2, h⟩ := except_bind_ok h
  simp only [pure, Except.pure] at h
  cases h
  have w2 : df2.wells = df.wells := by
    rw [condmapMediumConc_wells hif1, setCol_wells]
  have w3 : df3.wells = df2.wells := dropCol_wells hd1
  have w6 : df6.wells = df3.wells := by
    rw [condmapCondPart_wells hif2, setCol_wells]
  have w7 : df'.wells = df6.wells := dropCol_wells hd2
  rw [w7, w6, w3, w2]

/-- The wells of a successfully loaded legend: exactly the well identifiers of
the template grid — restricted to cells with a value when the dropna step
(biotek) is active — each occurring once. -/
theorem condmapCore_ok_wells {dropnaStep vb : Bool} {d : String}
    {t : CondTemplate} {legend : LegendDF}
    (h : condmapCore dropnaStep vb d t = .ok legend) :
    legend.wells.Nodup ∧
    ∀ w, w ∈ legend.wells ↔ ∃ r ∈ t.rows, ∃ c, c < 12 ∧
      w = r.2.1 ++ toString (c + 1) ∧
      (dropnaStep = true → (r.2.2.getD c none).isSome) := by
  simp only [condmapCore] at h
  by_cases hw12 : tmplWidth t < 12
  · rw [if_pos hw12] at h
    exact Except.noConfusion h
  · rw [if_neg hw12] at h
    cases dropnaStep with
    | true =>
        simp only [if_true] at h
        split at h
        · have hw := condmapSplit_wells h
          constructor
          · rw [hw]; exact List.nodup_dedup _
          · intro w
            rw [hw, List.mem_dedup, List.mem_map]
            constructor
            · rintro ⟨e, he, rfl⟩
              rw [List.mem_filter] at he
              obtain ⟨c, hc, hmem⟩ := List.mem_flatMap.1 he.1
              obtain ⟨r, hr, rfl⟩ := List.mem_map.1 hmem
              exact ⟨r, hr, c, List.mem_range.1 hc, rfl, fun _ => he.2⟩
            · rintro ⟨r, hr, c, hc, rfl, hsome⟩
              refine ⟨(r.1, r.2.1 ++ toString (c + 1), r.2.2.getD c none), ?_, rfl⟩
              rw [List.mem_filter]
              refine ⟨List.mem_flatMap.2 ⟨c, List.mem_range.2 hc,
                List.mem_map.2 ⟨r, hr, rfl⟩⟩, hsome rfl⟩
        · exact Except.noConfusion h
    | false =>
        simp only [Bool.false_eq_true, if_false] at h
        split at h
        · have hw := condmapSplit_wells h
          constructor
          · rw [hw]; exact List.nodup_dedup _
          · intro w
            rw [hw, List.mem_dedup, List.mem_map]
            constructor
            · rintro ⟨e, he, rfl⟩
              obtain ⟨c, hc, hmem⟩ := List.mem_flatMap.1 he
              obtain ⟨r, hr, rfl⟩ := List.mem_map.1 hmem
              exact ⟨r, hr, c, List.mem_range.1 hc, rfl, fun hcon => by cases hcon⟩
            · rintro ⟨r, hr, c, hc, rfl, _⟩
              exact ⟨(r.1, r.2.1 ++ toString (c + 1), r.2.2.getD c none),
                List.mem_flatMap.2 ⟨c, List.mem_range.2 hc,
                  List.mem_map.2 ⟨r, hr, rfl⟩⟩, rfl⟩
        · exact Except.noConfusion h

/-- C9 counterexample: the tecan and spectramax `plate_condmap` variants have
no dropna step before pivoting, so a well with NO descriptor value at all
(`A1` of `condTemplate9`) still gets a legend row; only the biotek variant
drops it. -/
theorem C9_counterexample_no_dropna :
    (tecanPlateCondmap condTemplate9 false ";").toOption.map
      (fun l => decide ("A1" ∈ l.wells)) = some true ∧
    (spectramaxPlateCondmap condTemplate9 false ";").toOption.map
      (fun l => decide ("A1" ∈ l.wells)) = some true ∧
    (biotekPlateCondmap condTemplate9 false ";").toOption.map
      (fun l => decide ("A1" ∈ l.wells)) = some false ∧
    condTemplate9.rows.all (fun r => (r.2.2.getD 0 none).isNone) = true := by
  exact ⟨by decide, by decide, by decide, by decide⟩

/-- C9 (amended): only the biotek `plate_condmap` drops value-less melted rows
before pivoting — its legend has a row only for wells with at least one
non-missing descriptor value. The tecan and spectramax variants have no
dropna step: every well of the template grid gets a legend row, descriptor
or not. -/
theorem C9_dropna_before_pivot :
    (∀ vb d t legend, biotekPlateCondmap t vb d = .ok legend →
      ∀ w ∈ legend.wells, ∃ r ∈ t.rows, ∃ c, c < 12 ∧
        w = r.2.1 ++ toString (c + 1) ∧ (r.2.2.getD c none).isSome) ∧
    (∀ vb d t legend, tecanPlateCondmap t vb d = .ok legend →
      ∀ r ∈ t.rows, ∀ c, c < 12 → r.2.1 ++ toString (c + 1) ∈ legend.wells) ∧
    (∀ vb d t legend, spectramaxPlateCondmap t vb d = .ok legend →
      ∀ r ∈ t.rows, ∀ c, c < 12 → r.2.1 ++ toString (c + 1) ∈ legend.wells) := by
  refine ⟨?_, ?_, ?_⟩
  · intro vb d t legend h w hw
    obtain ⟨r, hr, c, hc, hwe, hs⟩ := ((condmapCore_ok_wells h).2 w).1 hw
    exact ⟨r, hr, c, hc, hwe, hs rfl⟩
  · intro vb d t legend h r hr c hc
    exact ((condmapCore_ok_wells h).2 _).2 ⟨r, hr, c, hc, rfl, fun hcon => by cases hcon⟩
  · intro vb d t legend h r hr c hc
    exact ((condmapCore_ok_wells h).2 _).2 ⟨r, hr, c, hc, rfl, fun hcon => by cases hcon⟩

theorem C9_dropna_before_pivot_witness :
    ("Medium; Concentration (mM)", "A",
      ([none, some "LB; 5", none, none, none, none, none, none, none, none, none,
        none] : List (Option String))) ∈ condTemplate9.rows ∧
    "A" ++ toString (0 + 1) ∈
      (LegendDF.mk ["A1", "A2", "A3", "A4", "A5", "A6", "A7", "A8", "A9", "A10",
        "A11", "A12"]
        [("Medium", [Val.na, Val.s "LB", Val.na, Val.na, Val.na, Val.na, Val.na,
            Val.na, Val.na, Val.na, Val.na, Val.na]),
         ("Medium Conc. (mM)", [Val.na, Val.q 5, Val.na, Val.na, Val.na, Val.na,
            Val.na, Val.na, Val.na, Val.na, Val.na, Val.na]),
         ("Condition", [Val.na, Val.s "PI", Val.na, Val.na, Val.na, Val.na,
            Val.na, Val.na, Val.na, Val.na, Val.na, Val.na]),
         ("Condition Conc. (µM)", [Val.na, Val.s " 5", Val.na, Val.na, Val.na,
            Val.na, Val.na, Val.na, Val.na, Val.na, Val.na, Val.na])]).wells :=
  ⟨by decide,
   C9_dropna_before_pivot.2.1 false ";" condTemplate9 _ (by decide)
     ("Medium; Concentration (mM)", "A",
       [none, some "LB; 5", none, none, none, none, none, none, none, none, none,
        none])
     (by decide) 0 (by decide)⟩

/-- C10 counterexample: an 8-column template does NOT load — the melt step
requests `value_vars=[1,...,12]` and pandas raises a `KeyError` because
columns 9–12 are absent. -/
theorem C10_counterexample_8_columns :
    tmplWidth condTemplate8 = 8 ∧
    biotekPlateCondmap condTemplate8 false ";" = .error Err.meltMissing ∧
    tecanPlateCondmap condTemplate8 false ";" = .error Err.meltMissing ∧
    spectramaxPlateCondmap condTemplate8 false ";" = .error Err.meltMissing := by
  exact ⟨by decide, by decide, by decide, by decide⟩

/-- C10 (amended): `plate_condmap` accepts only templates with at least the
full 12 numbered value columns — any template whose grid is narrower
(including the 8-column variant) fails in the melt step, whose
`value_vars=[1,...,12]` must all be present. When a (well-formed) 12-column
template loads in the biotek variant, the legend has exactly one row per
filled well. -/
theorem C10_template_width :
    (∀ dropnaStep vb d t, tmplWidth t < 12 →
      condmapCore dropnaStep vb d t = .error Err.meltMissing) ∧
    (∀ vb d t legend, biotekPlateCondmap t vb d = .ok legend →
      legend.wells.Nodup ∧
      ∀ w, w ∈ legend.wells ↔ ∃ r ∈ t.rows, ∃ c, c < 12 ∧
        w = r.2.1 ++ toString (c + 1) ∧ (r.2.2.getD c none).isSome) := by
  constructor
  · intro dropnaStep vb d t hlt
    unfold condmapCore
    rw [if_pos hlt]
  · intro vb d t legend h
    obtain ⟨hnd, hiff⟩ := condmapCore_ok_wells h
    refine ⟨hnd, fun w => ?_⟩
    rw [hiff w]
    constructor
    · rintro ⟨r, hr, c, hc, hwe, hs⟩
      exact ⟨r, hr, c, hc, hwe, hs rfl⟩
    · rintro ⟨r, hr, c, hc, hwe, hs⟩
      exact ⟨r, hr, c, hc, hwe, fun _ => hs⟩

theorem C10_template_width_witness :
    condmapCore true false ";" condTemplate8 = .error Err.meltMissing ∧
    (LegendDF.mk ["A1"]
      [("Medium", [Val.s "LB"]), ("Medium Conc. (mM)", [Val.q 5]),
       ("Condition", [Val.s "PI"]),
       ("Condition Conc. (µM)", [Val.s " 5"])]).wells.Nodup :=
  ⟨C10_template_width.1 true false ";" condTemplate8 (by decide),
   (C10_template_width.2 false ";" condTemplate12 _ (by decide)).1⟩

theorem legendRowsFor_nil {legend : LegendDF} {w : String} (hw : w ∉ legend.wells) :
    legendRowsFor legend w = [] := by
  unfold legendRowsFor
  have hf : ((List.range legend.wells.length).filter
      (fun p => decide (legend.wells.getD p "" = w))) = [] := by
    rw [List.filter_eq_nil_iff]
    intro p hp
    simp only [decide_eq_true_eq]
    intro hEq
    apply hw
    rw [← hEq]
    have hlt : p < legend.wells.length := List.mem_range.1 hp
    rw [List.getD_eq_getElem _ _ hlt]
    exact List.getElem_mem hlt
  rw [hf]
  rfl

/-- C4: the Growth-Curve Importers join measurement rows to the legend with
inner-join semantics on the well identifier: every output row's well occurs
both among the measurement rows and in the legend index; measurement rows
whose well is absent from the legend contribute nothing (silently dropped, no
error); and the importers succeed whenever their two inputs parse. -/
theorem C4_inner_join :
    (∀ (α : Type) (key : α → String) (rows : List α) (legend : LegendDF)
      (r : α × List Val), r ∈ mergeWithLegend key rows legend →
        key r.1 ∈ rows.map key ∧ key r.1 ∈ legend.wells) ∧
    (∀ (α : Type) (key : α → String) (rows : List α) (legend : LegendDF),
      mergeWithLegend key (rows.filter (fun r => decide (key r ∈ legend.wells)))
        legend = mergeWithLegend key rows legend) ∧
    (∀ dataSheet tmpl nb vb blocks legend,
      biotekWrangle dataSheet true = .ok blocks →
      biotekPlateCondmap tmpl vb ";" = .ok legend →
      biotekImport dataSheet tmpl nb vb =
        .ok (blocks.map (fun b => annotateBlock b legend))) ∧
    (∀ dataSheet tmpl vb merged legend,
      tecanWrangle dataSheet true = .ok (Sum.inl merged) →
      tecanPlateCondmap tmpl false ";" = .ok legend →
      tecanImport dataSheet tmpl vb = .ok (TecanAnn.mk merged.names
        (legend.cols.map (·.1))
        (mergeWithLegend (fun re => re.1.well) merged.rows legend))) ∧
    (∀ dataSheet tmpl vb blocks legend,
      spectramaxWrangle dataSheet = .ok blocks →
      spectramaxPlateCondmap tmpl vb ";" = .ok legend →
      spectramaxImport dataSheet tmpl vb =
        .ok (blocks.map (fun b => annotateBlock b legend))) := by
  refine ⟨?_, ?_, ?_, ?_, ?_⟩
  · intro α key rows legend r hm
    obtain ⟨row, hrow, hmem⟩ := List.mem_flatMap.1 hm
    obtain ⟨vals, hvals, heq⟩ := List.mem_map.1 hmem
    cases heq
    constructor
    · exact List.mem_map.2 ⟨row, hrow, rfl⟩
    · obtain ⟨p, hp, _⟩ := List.mem_map.1 hvals
      have hp' := List.mem_filter.1 hp
      have hlt : p < legend.wells.length := List.mem_range.1 hp'.1
      have hEq : legend.wells.getD p "" = key row := of_decide_eq_true hp'.2
      rw [← hEq, List.getD_eq_getElem _ _ hlt]
      exact List.getElem_mem hlt
  · intro α key rows legend
    induction rows with
    | nil => rfl
    | cons r rows ih =>
        by_cases hk : key r ∈ legend.wells
        · rw [List.filter_cons_of_pos (by simpa using hk)]
          unfold mergeWithLegend at ih ⊢
          rw [List.flatMap_cons, List.flatMap_cons, ih]
        · rw [List.filter_cons_of_neg (by simpa using hk)]
          unfold mergeWithLegend at ih ⊢
          rw [List.flatMap_cons, ih, legendRowsFor_nil hk]
          rfl
  · intro dataSheet tmpl nb vb blocks legend h1 h2
    unfold biotekImport
    rw [h1]
    simp only [bind, Except.bind]
    rw [h2]
    rfl
  · intro dataSheet tmpl vb merged legend h1 h2
    unfold tecanImport
    rw [h1]
    simp only [bind, Except.bind]
    rw [h2]
    rfl
  · intro dataSheet tmpl vb blocks legend h1 h2
    unfold spectramaxImport
    rw [h1]
    simp only [bind, Except.bind]
    rw [h2]
    rfl

theorem C4_inner_join_witness :
    ("A1" ∈ ([((1:ℚ)/2, "A1", (1:ℚ)/10)].map (fun (r : ℚ × String × ℚ) => r.2.1)) ∧
      "A1" ∈ (LegendDF.mk ["A1"]
        [("Medium", [Val.s "LB"]), ("Medium Conc. (mM)", [Val.q 5]),
         ("Condition", [Val.s "PI"]),
         ("Condition Conc. (µM)", [Val.s " 5"])]).wells) ∧
    biotekImport biotekNewSheet condTemplate12 true false =
      .ok ([{ name := "OD600:600", rows := [(1/2, "A1", 1/10), (1, "A1", 1/5)] }].map
        (fun b => annotateBlock b (LegendDF.mk ["A1"]
          [("Medium", [Val.s "LB"]), ("Medium Conc. (mM)", [Val.q 5]),
           ("Condition", [Val.s "PI"]),
           ("Condition Conc. (µM)", [Val.s " 5"])]))) :=
  ⟨C4_inner_join.1 (ℚ × String × ℚ) (fun r => r.2.1) [(1/2, "A1", 1/10)]
     (LegendDF.mk ["A1"]
       [("Medium", [Val.s "LB"]), ("Medium Conc. (mM)", [Val.q 5]),
        ("Condition", [Val.s "PI"]), ("Condition Conc. (µM)", [Val.s " 5"])])
     ((1/2, "A1", 1/10), [Val.s "LB", Val.q 5, Val.s "PI", Val.s " 5"])
     (by decide),
   C4_inner_join.2.2.1 biotekNewSheet condTemplate12 true false
     [{ name := "OD600:600", rows := [(1/2, "A1", 1/10), (1, "A1", 1/5)] }]
     (LegendDF.mk ["A1"]
       [("Medium", [Val.s "LB"]), ("Medium Conc. (mM)", [Val.q 5]),
        ("Condition", [Val.s "PI"]), ("Condition Conc. (µM)", [Val.s " 5"])])
     (by decide) (by decide)⟩

/-- C8: `biotek.import_growthcurves` ignores its `new_bioteks` argument —
line 288 calls `wrangle_growthcurves(data_file_path, new_bioteks=True)` with a
hard-coded `True`. On an old-layout workbook, `wrangle_growthcurves` with
`new_bioteks=False` finds the measurement, but `import_growthcurves` with
`new_bioteks=False` still parses with the new layout and returns no blocks. -/
theorem C8_new_bioteks_flag_ignored :
    biotekWrangle biotekOldSheet false =
      .ok [{ name := "OD600", rows := [(1/2, "A1", 1/5)] }] ∧
    biotekWrangle biotekOldSheet true = .ok [] ∧
    biotekImport biotekOldSheet condTemplate12 false false = .ok [] ∧
    biotekImport biotekOldSheet condTemplate12 true false = .ok [] := by
  exact ⟨by decide, by decide, by decide, by decide⟩

/-! ## Column structure of the legend operations -/

theorem setCol_names (df : LegendDF) (nm : String) (vals : List Val) :
    (setCol df nm vals).cols.map (·.1) =
      if df.cols.any (fun c => decide (c.1 = nm)) then df.cols.map (·.1)
      else df.cols.map (·.1) ++ [nm] := by
  unfold setCol
  split
  · rename_i hany
    simp only [List.map_map]
    apply List.map_congr_left
    intro c hc
    by_cases he : c.1 = nm
    · simp [Function.comp, he]
    · simp [Function.comp, he]
  · rename_i hany
    simp

theorem setCol_names_mem (df : LegendDF) (nm : String) (vals : List Val)
    (nm' : String) :
    nm' ∈ (setCol df nm vals).cols.map (·.1) ↔
      nm' ∈ df.cols.map (·.1) ∨ nm' = nm := by
  rw [setCol_names]
  split
  · rename_i hany
    constructor
    · exact Or.inl
    · rintro (h | rfl)
      · exact h
      · obtain ⟨c, hc, hcn⟩ := List.any_eq_true.1 hany
        exact List.mem_map.2 ⟨c, hc, of_decide_eq_true hcn⟩
  · simp [List.mem_append]

theorem setCol_mem_inv {df : LegendDF} {nm : String} {vals : List Val}
    {p : String × List Val} (h : p ∈ (setCol df nm vals).cols) :
    p ∈ df.cols ∨ p = (nm, vals) := by
  unfold setCol at h
  split at h
  · obtain ⟨c, hc, hcn⟩ := List.mem_map.1 h
    by_cases he : c.1 = nm
    · right; rw [← hcn, if_pos he]
    · left; rw [← hcn, if_neg he]; exact hc
  · rcases List.mem_append.1 h with h | h
    · exact Or.inl h
    · exact Or.inr (List.mem_singleton.1 h)

theorem setCol_mem_eq {df : LegendDF} {nm : String} {vals col : List Val}
    (h : (nm, col) ∈ (setCol df nm vals).cols) : col = vals := by
  unfold setCol at h
  split at h
  · obtain ⟨c, hc, hcn⟩ := List.mem_map.1 h
    by_cases he : c.1 = nm
    · rw [if_pos he] at hcn
      exact (Prod.ext_iff.1 hcn).2.symm
    · rw [if_neg he] at hcn
      exact absurd (congrArg Prod.fst hcn) (by simpa using he)
  · rename_i hany
    rcases List.mem_append.1 h with h | h
    · exact absurd (List.any_eq_true.2 ⟨(nm, col), h, by simp⟩) hany
    · exact (Prod.ext_iff.1 (List.mem_singleton.1 h)).2

theorem foldl_setCol_mem_inv {pairs : List (String × List Val)} :
    ∀ {df : LegendDF} {p : String × List Val},
      p ∈ (pairs.foldl (fun d nc => setCol d nc.1 nc.2) df).cols →
      p ∈ df.cols ∨ p ∈ pairs := by
  induction pairs with
  | nil => intro df p h; exact Or.inl h
  | cons a rest ih =>
      intro df p h
      rw [List.foldl_cons] at h
      rcases ih h with h' | h'
      · rcases setCol_mem_inv h' with h'' | h''
        · exact Or.inl h''
        · exact Or.inr (by rw [h'']; exact List.mem_cons_self a rest)
      · exact Or.inr (List.mem_cons_of_mem a h')

theorem foldl_setCol_mem_of_key {pairs : List (String × List Val)} :
    ∀ {df : LegendDF} {nm : String} {col : List Val},
      (nm, col) ∈ (pairs.foldl (fun d nc => setCol d nc.1 nc.2) df).cols →
      nm ∈ pairs.map (·.1) → (nm, col) ∈ pairs := by
  induction pairs with
  | nil => intro df nm col _ hk; simp at hk
  | cons a rest ih =>
      intro df nm col h hk
      rw [List.foldl_cons] at h
      by_cases hr : nm ∈ rest.map (·.1)
      · exact List.mem_cons_of_mem a (ih h hr)
      · have hnm : nm = a.1 := by
          rcases List.mem_map.1 hk with ⟨b, hb, hbn⟩
          rcases List.mem_cons.1 hb with rfl | hb'
          · exact hbn.symm
          · exact absurd (List.mem_map.2 ⟨b, hb', hbn⟩) hr
        rcases foldl_setCol_mem_inv h with h' | h'
        · subst hnm
          have := setCol_mem_eq h'
          subst this
          exact List.mem_cons_self _ _
        · exact List.mem_cons_of_mem a h'

theorem foldl_setCol_names_mem (pairs : List (String × List Val)) :
    ∀ (df : LegendDF) (nm : String),
      nm ∈ (pairs.foldl (fun d nc => setCol d nc.1 nc.2) df).cols.map (·.1) ↔
      nm ∈ df.cols.map (·.1) ∨ nm ∈ pairs.map (·.1) := by
  induction pairs with
  | nil => intro df nm; simp
  | cons a rest ih =>
      intro df nm
      rw [List.foldl_cons, ih, setCol_names_mem]
      simp only [List.map_cons, List.mem_cons]
      tauto

theorem dropCol_names_mem {df df' : LegendDF} {nm : String}
    (h : dropCol df nm = .ok df') (nm' : String) :
    nm' ∈ df'.cols.map (·.1) ↔ nm' ∈ df.cols.map (·.1) ∧ nm' ≠ nm := by
  unfold dropCol at h
  split at h
  · cases h
    constructor
    · intro hin
      obtain ⟨c, hc, hcn⟩ := List.mem_map.1 hin
      have hc' := List.mem_filter.1 hc
      refine ⟨List.mem_map.2 ⟨c, hc'.1, hcn⟩, ?_⟩
      intro hEq
      have := hc'.2
      rw [hcn, hEq] at this
      simp at this
    · rintro ⟨hin, hne⟩
      obtain ⟨c, hc, hcn⟩ := List.mem_map.1 hin
      refine List.mem_map.2 ⟨c, List.mem_filter.2 ⟨hc, ?_⟩, hcn⟩
      simp only [Bool.not_eq_eq_eq_not, Bool.not_true, decide_eq_false_iff_not]
      rw [hcn]
      exact hne
  · exact Except.noConfusion h

theorem dropCol_mem_inv {df df' : LegendDF} {nm : String}
    (h : dropCol df nm = .ok df') {p : String × List Val} (hp : p ∈ df'.cols) :
    p ∈ df.cols := by
  unfold dropCol at h
  split at h
  · cases h
    exact (List.mem_filter.1 hp).1
  · exact Except.noConfusion h

theorem dropCol_ok_of_mem {df : LegendDF} {nm : String}
    (h : nm ∈ df.cols.map (·.1)) : ∃ df', dropCol df nm = .ok df' := by
  obtain ⟨c, hc, hcn⟩ := List.mem_map.1 h
  unfold dropCol
  rw [if_pos (List.any_eq_true.2 ⟨c, hc, decide_eq_true hcn⟩)]
  exact ⟨_, rfl⟩

theorem mapM_ok_of_forall {α β : Type} {f : α → Except Err β} :
    ∀ {xs : List α}, (∀ x ∈ xs, ∃ y, f x = .ok y) →
      ∃ ys, xs.mapM f = .ok ys := by
  intro xs
  induction xs with
  | nil => intro _; exact ⟨[], rfl⟩
  | cons a xs ih =>
      intro h
      obtain ⟨b, hb⟩ := h a (List.mem_cons_self a xs)
      obtain ⟨bs, hbs⟩ := ih (fun x hx => h x (List.mem_cons_of_mem a hx))
      refine ⟨b :: bs, ?_⟩
      rw [List.mapM_cons, hb, hbs]
      rfl

theorem valFloat_shape {x : Option String} {v : Val} (h : valFloat x = .ok v) :
    v = Val.na ∨ ∃ q, v = Val.q q := by
  cases x with
  | none => cases h; exact Or.inl rfl
  | some s =>
      unfold valFloat at h
      dsimp only at h
      cases hp : pyFloat? s.toList with
      | none => rw [hp] at h; exact Except.noConfusion h
      | some q => rw [hp] at h; cases h; exact Or.inr ⟨q, rfl⟩

theorem concFloatCol_shape {conds1 : List (Option String)} {i : Nat}
    {col : List Val} (h : concFloatCol conds1 i = .ok col) :
    ∀ v ∈ col, v = Val.na ∨ ∃ q, v = Val.q q := by
  intro v hv
  obtain ⟨c?, _, hc⟩ := mapM_ok_mem h hv
  cases c? with
  | none => exact valFloat_shape hc
  | some parts =>
      simp only at hc
      cases hpi : parts.get? i with
      | none => rw [hpi] at hc; exact valFloat_shape hc
      | some p => rw [hpi] at hc; exact valFloat_shape hc

theorem bind_ok_congr {α β : Type} {e : Except Err α} {a : α}
    (h : e = .ok a) (f : α → Except Err β) : (e >>= f) = f a := by
  rw [h]; rfl

/-- C5: in verbose mode the condition expansion of `plate_condmap`
(the branch taken when some condition descriptor contains the delimiter)
(i) fails listing the distinct values when the non-missing condition
name-parts are not all identical, (ii) fails when the number of
comma-separated component names differs from the number of expanded
concentration columns, and (iii) otherwise adds one float column named
`<trimmed name> Conc. (µM)` per component and drops the `Condition` and
`Condition Conc. (µM)` columns; (iv) with parseable concentrations and the
two columns present, the branch indeed succeeds. -/
theorem C5_verbose_legend (df : LegendDF) (conds0 conds1 : List (Option String)) :
    (1 < ((conds0.filterMap id).dedup).length →
      condVerboseBranch df conds0 conds1 =
        .error (.notVerboseNames ((conds0.filterMap id).dedup))) ∧
    (∀ n0, (conds0.filterMap id).dedup = [n0] →
      (splitCommas n0).length ≠ concWidth conds1 →
      condVerboseBranch df conds0 conds1 =
        .error (.notVerboseCount (splitCommas n0).length (concWidth conds1))) ∧
    (∀ df', condVerboseBranch df conds0 conds1 = .ok df' →
      ∃ n0, (conds0.filterMap id).dedup = [n0] ∧
        (splitCommas n0).length = concWidth conds1 ∧
        (∀ nm, nm ∈ df'.cols.map (·.1) ↔
          ((nm ∈ df.cols.map (·.1) ∨
            nm ∈ (splitCommas n0).map (fun n => pyStrip n ++ " Conc. (µM)")) ∧
           nm ≠ "Condition" ∧ nm ≠ "Condition Conc. (µM)")) ∧
        (∀ nm col, (nm, col) ∈ df'.cols →
          nm ∈ (splitCommas n0).map (fun n => pyStrip n ++ " Conc. (µM)") →
          ∀ v ∈ col, v = Val.na ∨ ∃ q, v = Val.q q)) ∧
    (∀ n0, (conds0.filterMap id).dedup = [n0] →
      (splitCommas n0).length = concWidth conds1 →
      (∀ s ∈ conds1.filterMap id, ∀ p ∈ splitCommas s,
        (pyFloat? p.toList).isSome = true) →
      "Condition" ∈ df.cols.map (·.1) →
      "Condition Conc. (µM)" ∈ df.cols.map (·.1) →
      ∃ df', condVerboseBranch df conds0 conds1 = .ok df') := by
  refine ⟨?_, ?_, ?_, ?_⟩
  · intro h
    simp only [condVerboseBranch]
    rw [if_pos h]
  · intro n0 hA hne
    simp only [condVerboseBranch, hA]
    rw [if_neg (by simp), if_pos hne]
  · intro df' h
    simp only [condVerboseBranch] at h
    split at h
    · exact absurd h (by simp)
    · rename_i hnotlt
      split at h
      · exact absurd h (by simp)
      · rename_i n0 rest heq
        have hrest : rest = [] := by
          rw [heq] at hnotlt
          cases rest with
          | nil => rfl
          | cons b l => simp at hnotlt
        subst hrest
        split at h
        · exact absurd h (by simp)
        · rename_i hcount
          simp only [ne_eq, not_not] at hcount
          obtain ⟨cols, hcols, h⟩ := except_bind_ok h
          obtain ⟨dfa, hdfa, h⟩ := except_bind_ok h
          obtain ⟨dfb, hdfb, h⟩ := except_bind_ok h
          cases h
          have hlen : cols.length = concWidth conds1 := by
            rw [mapM_ok_length hcols, List.length_range]
          have hkeys : (((splitCommas n0).map
              (fun n => pyStrip n ++ " Conc. (µM)")).zip cols).map (·.1) =
              (splitCommas n0).map (fun n => pyStrip n ++ " Conc. (µM)") := by
            apply List.map_fst_zip
            rw [List.length_map, hlen, hcount]
          refine ⟨n0, heq, hcount, ?_, ?_⟩
          · intro nm
            rw [dropCol_names_mem hdfb nm, dropCol_names_mem hdfa nm,
              foldl_setCol_names_mem, hkeys]
            tauto
          · intro nm col hp hnm v hv
            have hp1 := dropCol_mem_inv hdfa (dropCol_mem_inv hdfb hp)
            have hzip := foldl_setCol_mem_of_key hp1 (by rw [hkeys]; exact hnm)
            have hcol : col ∈ cols := (List.of_mem_zip hzip).2
            obtain ⟨i, _, hi⟩ := mapM_ok_mem hcols hcol
            exact concFloatCol_shape hi v hv
  · intro n0 hA hcount hpars hC hCC
    have hex : ∀ i ∈ List.range (concWidth conds1),
        ∃ col, concFloatCol conds1 i = .ok col := by
      intro i _
      unfold concFloatCol
      apply mapM_ok_of_forall
      intro c? hc?
      cases c? with
      | none => exact ⟨Val.na, rfl⟩
      | some parts =>
          obtain ⟨o, ho, hoe⟩ := List.mem_map.1
            (by simpa only [concSplitParts] using hc?)
          cases o with
          | none => exact absurd hoe (by simp)
          | some s =>
              simp only [Option.map_some'] at hoe
              have hps : parts = splitCommas s := (Option.some.inj hoe).symm
              cases hpi : parts.get? i with
              | none => exact ⟨Val.na, by dsimp only; rw [hpi]; rfl⟩
              | some p =>
                  have hpmem : p ∈ splitCommas s := by
                    rw [hps] at hpi
                    exact List.get?_mem hpi
                  have hsmem : s ∈ conds1.filterMap id :=
                    List.mem_filterMap.2 ⟨some s, ho, rfl⟩
                  obtain ⟨q, hq⟩ := Option.isSome_iff_exists.mp
                    (hpars s hsmem p hpmem)
                  refine ⟨Val.q q, by dsimp only; rw [hpi]; dsimp only [valFloat]; rw [hq]⟩
    obtain ⟨cols, hcols⟩ := mapM_ok_of_forall hex
    have h1 : "Condition" ∈ ((((splitCommas n0).map
        (fun n => pyStrip n ++ " Conc. (µM)")).zip cols).foldl
        (fun d nc => setCol d nc.1 nc.2) df).cols.map (·.1) :=
      (foldl_setCol_names_mem _ df _).2 (Or.inl hC)
    obtain ⟨dfa, hdfa⟩ := dropCol_ok_of_mem h1
    have h2 : "Condition Conc. (µM)" ∈ dfa.cols.map (·.1) :=
      (dropCol_names_mem hdfa _).2
        ⟨(foldl_setCol_names_mem _ df _).2 (Or.inl hCC), by decide⟩
    obtain ⟨dfb, hdfb⟩ := dropCol_ok_of_mem h2
    refine ⟨dfb, ?_⟩
    simp only [condVerboseBranch, hA]
    rw [if_neg (by simp), if_neg (by simp [hcount])]
    rw [bind_ok_congr hcols]
    rw [bind_ok_congr hdfa]
    rw [bind_ok_congr hdfb]

/-- C5 witness: on the spec's verbose example (`"PI, PYO; 5, 0"` and
`"PI, PYO; 0, 5"`) the verbose branch succeeds, and with one well renamed
`"PI"` it raises the distinct-names error. -/
theorem C5_verbose_legend_witness :
    (∃ df', condVerboseBranch
        ⟨["A1", "A2"], [("Condition", [Val.s "PI, PYO", Val.s "PI, PYO"]),
          ("Condition Conc. (µM)", [Val.s " 5, 0", Val.s " 0, 5"])]⟩
        [some "PI, PYO", some "PI, PYO"] [some " 5, 0", some " 0, 5"] =
        .ok df') ∧
    condVerboseBranch
        ⟨["A1", "A2"], [("Condition", [Val.s "PI, PYO", Val.s "PI"]),
          ("Condition Conc. (µM)", [Val.s " 5, 0", Val.s " 5"])]⟩
        [some "PI, PYO", some "PI"] [some " 5, 0", some " 5"] =
      .error (.notVerboseNames ["PI, PYO", "PI"]) :=
  ⟨(C5_verbose_legend _ _ _).2.2.2 "PI, PYO" (by decide) (by decide)
      (by decide) (by decide) (by decide),
   ((C5_verbose_legend _ _ _).1 (by decide)).trans (by rfl)⟩
